import Mathlib

/-!
# The representation-update pipeline of `dyn_ham.cpp`

A shallow embedding of `update_Hamiltonian_variables` (file `src/dyn/dyn_ham.cpp`).
Real numbers (`double`) are modelled by exact rationals.  The classes `MATRIX`,
`CMATRIX`, `nHamiltonian`, `dyn_variables` and `dyn_control_params` are not part of
the sources at hand; they are modelled from their description in the specification
and from the way the pipeline uses them.
-/

namespace liblibra
namespace libdyn

/-! ## Dense matrices -/

/-- Modelled from the spec: the real dense matrix of the matrix collaborator (class
`MATRIX` is not in the sources).  A shape and the entries, addressed by row and column. -/
structure MATRIX where
  n_rows : Nat
  n_cols : Nat
  M : Int → Int → ℚ

/-- Modelled from the spec: the complex dense matrix of the matrix collaborator (class
`CMATRIX` is not in the sources), kept as its real and its imaginary entries. -/
structure CMATRIX where
  n_rows : Nat
  n_cols : Nat
  re : Int → Int → ℚ
  im : Int → Int → ℚ

namespace MATRIX

/-- The constructor `MATRIX(n_rows, n_cols)`: every entry is zero. -/
def zero (n_rows n_cols : Nat) : MATRIX :=
  { n_rows := n_rows, n_cols := n_cols, M := fun _ _ => 0 }

/-- Element read `m.get(row, col)`. -/
def get (m : MATRIX) (row col : Int) : ℚ := m.M row col

/-- Element write `m.set(row, col, x)`.  A write outside the shape is undefined in the
program; here it leaves the matrix as it is. -/
def set (m : MATRIX) (row col : Int) (x : ℚ) : MATRIX :=
  if 0 ≤ row ∧ row < m.n_rows ∧ 0 ≤ col ∧ col < m.n_cols then
    { m with M := fun i j => if i = row ∧ j = col then x else m.M i j }
  else m

end MATRIX

namespace CMATRIX

/-- The constructor `CMATRIX(n_rows, n_cols)`: every entry is zero. -/
def zero (n_rows n_cols : Nat) : CMATRIX :=
  { n_rows := n_rows, n_cols := n_cols, re := fun _ _ => 0, im := fun _ _ => 0 }

/-- The constructor `CMATRIX(re_part, im_part)`; the shape is that of the real part. -/
def ofParts (re_part im_part : MATRIX) : CMATRIX :=
  { n_rows := re_part.n_rows, n_cols := re_part.n_cols, re := re_part.M, im := im_part.M }

/-- The real part `m.real()`. -/
def real (m : CMATRIX) : MATRIX :=
  { n_rows := m.n_rows, n_cols := m.n_cols, M := m.re }

/-- The imaginary part `m.imag()`. -/
def imag (m : CMATRIX) : MATRIX :=
  { n_rows := m.n_rows, n_cols := m.n_cols, M := m.im }

/-- The conjugate transpose `m.H()`. -/
def H (m : CMATRIX) : CMATRIX :=
  { n_rows := m.n_cols, n_cols := m.n_rows,
    re := fun i j => m.re j i, im := fun i j => - m.im j i }

/-- The difference `a - b` (the shape is that of the left operand). -/
def sub (a b : CMATRIX) : CMATRIX :=
  { n_rows := a.n_rows, n_cols := a.n_cols,
    re := fun i j => a.re i j - b.re i j, im := fun i j => a.im i j - b.im i j }

/-- The product `k * a` of a real scalar and a complex matrix. -/
def scale (k : ℚ) (a : CMATRIX) : CMATRIX :=
  { n_rows := a.n_rows, n_cols := a.n_cols,
    re := fun i j => k * a.re i j, im := fun i j => k * a.im i j }

end CMATRIX

/-! ## Configuration and dynamical variables -/

/-- Modelled from the spec: the fields of `dyn_control_params` that the pipeline reads
(the class is not in the sources). -/
structure dyn_control_params where
  ham_update_method : Int
  ham_transform_method : Int
  entanglement_opt : Int
  nac_update_method : Int
  nac_algo : Int
  hvib_update_method : Int
  ETHD3_alpha : ℚ
  ETHD3_beta : ℚ
  dt : ℚ
  isNBRA : Int
  quantum_dofs : List Int

/-- Modelled from the spec: the fields of `dyn_variables` that the pipeline reads
(the class is not in the sources). -/
structure dyn_variables where
  ndof : Nat
  ntraj : Nat
  q : MATRIX
  p : MATRIX
  iM : MATRIX

/-! ## The Hamiltonian collaborator -/

/-- Modelled from the spec: a per-trajectory node of the Hamiltonian tree.  Only the
stored adiabatic time overlap and the stored adiabatic NAC are accessed by the pipeline
directly; everything else the node stores is `data`. -/
structure Node (X : Type) where
  time_overlap_adi : CMATRIX
  nac_adi : CMATRIX
  data : X

/-- Modelled from the spec: the root `nHamiltonian` (the class is not in the sources):
the number of adiabatic states, the list of per-trajectory children and everything else
it stores (`data`). -/
structure nHamiltonian (X : Type) where
  nadi : Nat
  children : List (Node X)
  data : X

/-- The getter `node->get_time_overlap_adi()`. -/
def Node.get_time_overlap_adi {X : Type} (nd : Node X) : CMATRIX := nd.time_overlap_adi

/-- The setter `node->set_nac_adi_by_val(nac)`. -/
def Node.set_nac_adi_by_val {X : Type} (nd : Node X) (nac : CMATRIX) : Node X :=
  { nd with nac_adi := nac }

/-- The calls the pipeline makes on the Hamiltonian collaborator, with their arguments.
`Py` is the type of the two Python objects `py_funct` and `model_params`. -/
inductive Call (Py : Type) where
  | compute_diabatic (py_funct : Py) (q : MATRIX) (model_params : Py) (lvl : Int)
  | compute_adiabatic (py_funct : Py) (q : MATRIX) (model_params : Py) (lvl : Int)
  | compute_adiabatic_internal (der_lvl : Int) (lvl : Int)
  | add_ethd_adi (q iM : MATRIX) (lvl : Int)
  | add_ethd3_adi (q iM : MATRIX) (alpha : ℚ) (lvl : Int)
  | add_ethd3_adi_p (q p iM : MATRIX) (alpha beta : ℚ) (lvl : Int)
  | compute_nac_dia (p iM : MATRIX) (option : Int) (lvl : Int)
  | compute_nac_adi (p iM : MATRIX) (option : Int) (lvl : Int)
  | set_nac_adi_by_val (traj : Nat) (nac : CMATRIX)
  | compute_hvib_dia (lvl : Int)
  | compute_hvib_adi (lvl : Int)

/-- What is outside the sources and treated as given: the effect of each collaborator
method on the Hamiltonian, and the interpolation routine `nac_npi`. -/
structure Collaborators (Py X : Type) where
  method : Call Py → nHamiltonian X → nHamiltonian X
  nac_npi : MATRIX → ℚ → MATRIX

/-- The effect of `ham.children[traj]->set_nac_adi_by_val(nac)` on the tree. -/
def nHamiltonian.set_child_nac {X : Type} (ham : nHamiltonian X) (traj : Nat)
    (nac : CMATRIX) : nHamiltonian X :=
  { ham with children := ham.children.modify (fun nd => nd.set_nac_adi_by_val nac) traj }

/-- The effect of one collaborator call on the Hamiltonian; the store of a NAC on a
child is the one call whose effect is spelled out. -/
def Collaborators.perform {Py X : Type} (C : Collaborators Py X) :
    Call Py → nHamiltonian X → nHamiltonian X
  | Call.set_nac_adi_by_val traj nac, ham => ham.set_child_nac traj nac
  | c, ham => C.method c ham

/-! ## The pipeline -/

/-- The state threaded through one call of the pipeline: the dynamical variables, the
Hamiltonian, and the collaborator calls made so far. -/
structure Run (Py X : Type) where
  dyn_var : dyn_variables
  ham : nHamiltonian X
  calls : List (Call Py)

/-- How a call of the pipeline ends: it returns, or the process is ended by `exit`
after a message was written to `cout`. -/
inductive Outcome (Py X : Type) where
  | returned (r : Run Py X)
  | exited (status : Int) (cout : String) (r : Run Py X)

/-- Make one collaborator call. -/
def Run.invoke {Py X : Type} (C : Collaborators Py X) (c : Call Py) (r : Run Py X) :
    Run Py X :=
  { r with ham := C.perform c r.ham, calls := r.calls ++ [c] }

/-- Lines 79-85: how to compute the electronic Hamiltonian. -/
def energy_step {Py X : Type} (C : Collaborators Py X) (prms : dyn_control_params)
    (py_funct model_params : Py) (r : Run Py X) : Run Py X :=
  if prms.ham_update_method = 0 then r
  else if prms.ham_update_method = 1 then
    r.invoke C (Call.compute_diabatic py_funct r.dyn_var.q model_params 1)
  else if prms.ham_update_method = 2 then
    r.invoke C (Call.compute_adiabatic py_funct r.dyn_var.q model_params 1)
  else r

/-- Lines 89-101: the additional transformation between representations. -/
def transform_step {Py X : Type} (C : Collaborators Py X) (prms : dyn_control_params)
    (r : Run Py X) : Run Py X :=
  if prms.ham_transform_method = 0 then r
  else if prms.ham_transform_method = 1 then
    r.invoke C (Call.compute_adiabatic_internal 1 1)
  else if prms.ham_transform_method = 2 then r
  else if prms.ham_transform_method = 3 then r
  else if prms.ham_transform_method = 4 then r
  else r

/-- The text written to `cout` on an unknown entanglement option (line 111). -/
def entanglement_error (entanglement_opt : Int) : String :=
  "ERROR in update_Hamiltonian_q_ethd: The entanglement option = "
    ++ toString entanglement_opt ++ " is not avaialable\n"

/-- Lines 106-113: the entanglement options. -/
def entanglement_step {Py X : Type} (C : Collaborators Py X) (prms : dyn_control_params)
    (r : Run Py X) : Outcome Py X :=
  if prms.entanglement_opt = 0 then Outcome.returned r
  else if prms.entanglement_opt = 1 then
    Outcome.returned (r.invoke C (Call.add_ethd_adi r.dyn_var.q r.dyn_var.iM 1))
  else if prms.entanglement_opt = 2 then
    Outcome.returned
      (r.invoke C (Call.add_ethd3_adi r.dyn_var.q r.dyn_var.iM prms.ETHD3_alpha 1))
  else if prms.entanglement_opt = 22 then
    Outcome.returned
      (r.invoke C (Call.add_ethd3_adi_p r.dyn_var.q r.dyn_var.p r.dyn_var.iM
        prms.ETHD3_alpha prms.ETHD3_beta 1))
  else Outcome.exited 0 (entanglement_error prms.entanglement_opt) r

/-- Lines 134-137: the momenta of the quantum degrees of freedom.  The two nested loops
write into the fresh matrix `p_quantum_dof` and read from `p`. -/
def p_quantum_dof (prms : dyn_control_params) (dyn_var : dyn_variables) : MATRIX :=
  prms.quantum_dofs.foldl
    (fun acc dof =>
      (List.range dyn_var.ntraj).foldl
        (fun acc (itraj : Nat) => acc.set dof itraj (dyn_var.p.get dof itraj)) acc)
    (MATRIX.zero dyn_var.ndof dyn_var.ntraj)

/-- Line 161: `0.5*dt*(st-st.H())`. -/
def nac_direct (dt : ℚ) (st : CMATRIX) : CMATRIX :=
  CMATRIX.scale ((1 / 2 : ℚ) * dt) (st.sub st.H)

/-- Lines 159-166: the body of the loop over trajectories up to the store; `nac` is
declared outside the loop, and so keeps its value when no branch assigns it. -/
def nac_of_overlap {Py X : Type} (C : Collaborators Py X) (prms : dyn_control_params)
    (nac_im : MATRIX) (st : CMATRIX) (nac : CMATRIX) : CMATRIX :=
  if prms.nac_algo = 0 then nac_direct prms.dt st
  else if prms.nac_algo = 1 then CMATRIX.ofParts (C.nac_npi st.real prms.dt) nac_im
  else nac

/-- Lines 158-170: one turn of the loop over trajectories, on the pair of the run and
the local `nac`. -/
def nac_loop_body {Py X : Type} (C : Collaborators Py X) (prms : dyn_control_params)
    (nac_im : MATRIX) (s : Run Py X × CMATRIX) (traj : Nat) : Run Py X × CMATRIX :=
  match s.1.ham.children[traj]? with
  | none => s
  | some child =>
    let st := child.get_time_overlap_adi
    let nac := nac_of_overlap C prms nac_im st s.2
    (s.1.invoke C (Call.set_nac_adi_by_val traj nac), nac)

/-- Lines 144-171: NAC from the time overlaps. -/
def nac_by_overlap {Py X : Type} (C : Collaborators Py X) (prms : dyn_control_params)
    (r : Run Py X) : Run Py X :=
  let nst := r.ham.nadi
  let ntraj := r.ham.children.length
  let nac := CMATRIX.zero nst nst
  let nac_im := MATRIX.zero nst nst
  ((List.range ntraj).foldl (nac_loop_body C prms nac_im) (r, nac)).1

/-- Lines 121-171: the couplings. -/
def coupling_step {Py X : Type} (C : Collaborators Py X) (prms : dyn_control_params)
    (r : Run Py X) : Run Py X :=
  if prms.nac_update_method = 0 then r
  else if prms.nac_update_method = 1 then
    let pq := p_quantum_dof prms r.dyn_var
    (r.invoke C (Call.compute_nac_dia pq r.dyn_var.iM 0 1)).invoke C
      (Call.compute_nac_adi pq r.dyn_var.iM 0 1)
  else if prms.nac_update_method = 2 then nac_by_overlap C prms r
  else r

/-- Lines 176-182: the vibronic Hamiltonian. -/
def hvib_step {Py X : Type} (C : Collaborators Py X) (prms : dyn_control_params)
    (r : Run Py X) : Run Py X :=
  if prms.hvib_update_method = 0 then r
  else if prms.hvib_update_method = 1 then
    (r.invoke C (Call.compute_hvib_dia 1)).invoke C (Call.compute_hvib_adi 1)
  else r

/-- Lines 75-114: the block run when `update_type == 0`. -/
def phase_A {Py X : Type} (C : Collaborators Py X) (prms : dyn_control_params)
    (py_funct model_params : Py) (r : Run Py X) : Outcome Py X :=
  entanglement_step C prms
    (transform_step C prms (energy_step C prms py_funct model_params r))

/-- Lines 117-184: the block run when `update_type` is 0 or 1. -/
def phase_B {Py X : Type} (C : Collaborators Py X) (prms : dyn_control_params)
    (r : Run Py X) : Run Py X :=
  hvib_step C prms (coupling_step C prms r)

/-- The function `update_Hamiltonian_variables` of `dyn_ham.cpp` (lines 31-187). -/
def update_Hamiltonian_variables {Py X : Type} (C : Collaborators Py X)
    (prms : dyn_control_params) (dyn_var : dyn_variables) (ham : nHamiltonian X)
    (py_funct model_params : Py) (update_type : Int) : Outcome Py X :=
  let r0 : Run Py X := { dyn_var := dyn_var, ham := ham, calls := [] }
  match (if update_type = 0 then phase_A C prms py_funct model_params r0
         else Outcome.returned r0) with
  | Outcome.exited status cout r => Outcome.exited status cout r
  | Outcome.returned r1 =>
    if update_type = 0 ∨ update_type = 1 then Outcome.returned (phase_B C prms r1)
    else Outcome.returned r1

/-- The run an outcome carries: the state on return, or the state when `exit` was called. -/
def Outcome.run {Py X : Type} : Outcome Py X → Run Py X
  | Outcome.returned r => r
  | Outcome.exited _ _ r => r

/-- The exit status and the text written to `cout` when the call ended in `exit`. -/
def Outcome.failure {Py X : Type} : Outcome Py X → Option (Int × String)
  | Outcome.returned _ => none
  | Outcome.exited status cout _ => some (status, cout)

/-! ## The stages as the specification words them

Each stage is described by the list of collaborator operations it stands for; a list is
carried out by making its calls one after the other. -/

/-- Carry out a list of collaborator calls in order. -/
def Run.replay {Py X : Type} (C : Collaborators Py X) (cs : List (Call Py))
    (r : Run Py X) : Run Py X :=
  cs.foldl (fun acc c => acc.invoke C c) r

/-- Energy step of the specification: code 1 recomputes the diabatic Hamiltonian from
`q`, code 2 the adiabatic one, anything else does nothing. -/
def spec_energy_ops {Py : Type} (prms : dyn_control_params) (py_funct model_params : Py)
    (q : MATRIX) : List (Call Py) :=
  if prms.ham_update_method = 1 then [Call.compute_diabatic py_funct q model_params 1]
  else if prms.ham_update_method = 2 then [Call.compute_adiabatic py_funct q model_params 1]
  else []

/-- Transform step of the specification: code 1 is the internal diagonalization,
anything else does nothing. -/
def spec_transform_ops {Py : Type} (prms : dyn_control_params) : List (Call Py) :=
  if prms.ham_transform_method = 1 then [Call.compute_adiabatic_internal 1 1] else []

/-- Entanglement step of the specification, for the four valid codes. -/
def spec_entanglement_ops {Py : Type} (prms : dyn_control_params) (dyn_var : dyn_variables) :
    List (Call Py) :=
  if prms.entanglement_opt = 1 then [Call.add_ethd_adi dyn_var.q dyn_var.iM 1]
  else if prms.entanglement_opt = 2 then
    [Call.add_ethd3_adi dyn_var.q dyn_var.iM prms.ETHD3_alpha 1]
  else if prms.entanglement_opt = 22 then
    [Call.add_ethd3_adi_p dyn_var.q dyn_var.p dyn_var.iM prms.ETHD3_alpha prms.ETHD3_beta 1]
  else []

/-- The coupling that the loop over trajectories stores for a trajectory whose stored
time overlap is `st`, on a Hamiltonian with `nst` adiabatic states: the direct formula
for selector 0, the interpolation with a zero imaginary part for selector 1, and the
initial value of the local `nac` for any other selector. -/
def overlap_nac {Py X : Type} (C : Collaborators Py X) (prms : dyn_control_params)
    (nst : Nat) (st : CMATRIX) : CMATRIX :=
  if prms.nac_algo = 0 then nac_direct prms.dt st
  else if prms.nac_algo = 1 then
    CMATRIX.ofParts (C.nac_npi st.real prms.dt) (MATRIX.zero nst nst)
  else CMATRIX.zero nst nst

/-- One store per trajectory, in trajectory order, each computed from the time overlap
of that trajectory alone. -/
def spec_overlap_ops {Py X : Type} (C : Collaborators Py X) (prms : dyn_control_params)
    (ham : nHamiltonian X) : List (Call Py) :=
  ham.children.enum.map
    (fun tc => Call.set_nac_adi_by_val tc.1 (overlap_nac C prms ham.nadi tc.2.time_overlap_adi))

/-- Coupling step of the specification: code 1 recomputes both NACs from the masked
momenta, code 2 stores a NAC computed from the time overlap on every trajectory,
anything else does nothing. -/
def spec_coupling_ops {Py X : Type} (C : Collaborators Py X) (prms : dyn_control_params)
    (dyn_var : dyn_variables) (ham : nHamiltonian X) : List (Call Py) :=
  if prms.nac_update_method = 1 then
    [Call.compute_nac_dia (p_quantum_dof prms dyn_var) dyn_var.iM 0 1,
     Call.compute_nac_adi (p_quantum_dof prms dyn_var) dyn_var.iM 0 1]
  else if prms.nac_update_method = 2 then spec_overlap_ops C prms ham
  else []

/-- Vibronic-Hamiltonian step of the specification. -/
def spec_hvib_ops {Py : Type} (prms : dyn_control_params) : List (Call Py) :=
  if prms.hvib_update_method = 1 then [Call.compute_hvib_dia 1, Call.compute_hvib_adi 1]
  else []

/-- Two calls of the pipeline in succession, the second on the state the first one
returned; when the first call ends in `exit` there is no second call. -/
def update_twice {Py X : Type} (C : Collaborators Py X)
    (prms : dyn_control_params) (dyn_var : dyn_variables) (ham : nHamiltonian X)
    (py_funct model_params : Py) (update_type : Int) : Outcome Py X :=
  match update_Hamiltonian_variables C prms dyn_var ham py_funct model_params update_type with
  | Outcome.exited status cout r => Outcome.exited status cout r
  | Outcome.returned r =>
    update_Hamiltonian_variables C prms r.dyn_var r.ham py_funct model_params update_type

/-- Whether a call belongs to the block gated by `update_type` 0 or 1 (couplings and
vibronic Hamiltonian); the other calls belong to the block gated by `update_type = 0`. -/
def Call.isPhaseB {Py : Type} : Call Py → Bool
  | Call.compute_nac_dia _ _ _ _ => true
  | Call.compute_nac_adi _ _ _ _ => true
  | Call.set_nac_adi_by_val _ _ => true
  | Call.compute_hvib_dia _ => true
  | Call.compute_hvib_adi _ => true
  | _ => false

/-- Whether a call recomputes the diabatic Hamiltonian through the model evaluator. -/
def Call.isDiabaticEval {Py : Type} : Call Py → Bool
  | Call.compute_diabatic _ _ _ _ => true
  | _ => false

/-- Whether a call recomputes the adiabatic Hamiltonian through the model evaluator. -/
def Call.isAdiabaticEval {Py : Type} : Call Py → Bool
  | Call.compute_adiabatic _ _ _ _ => true
  | _ => false

/-- Whether a call is the internal diagonalization `compute_adiabatic(der_lvl, lvl)`. -/
def Call.isDiagonalization {Py : Type} : Call Py → Bool
  | Call.compute_adiabatic_internal _ _ => true
  | _ => false

/-- The trajectory a call stores a coupling on, for the store calls. -/
def Call.stored_on {Py : Type} : Call Py → Option Nat
  | Call.set_nac_adi_by_val traj _ => some traj
  | _ => none

/-! ## Concrete inputs used in the examples -/

/-- A collaborator over `X = Nat` whose every method adds one to the root's `data`, so
that any collaborator call is visible in the state. -/
def countingCollab : Collaborators Unit Nat :=
  { method := fun _ ham => { ham with data := ham.data + 1 },
    nac_npi := fun st _ => st }

/-- A policy with every method code set to skip. -/
def skipPolicy : dyn_control_params :=
  { ham_update_method := 0, ham_transform_method := 0, entanglement_opt := 0,
    nac_update_method := 0, nac_algo := 0, hvib_update_method := 0,
    ETHD3_alpha := 0, ETHD3_beta := 0, dt := 1, isNBRA := 0, quantum_dofs := [] }

/-- One trajectory over three degrees of freedom with momentum `[5, 7, 9]`. -/
def sampleVars : dyn_variables :=
  { ndof := 3, ntraj := 1, q := MATRIX.zero 3 1,
    p := { n_rows := 3, n_cols := 1,
           M := fun i _ => if i = 0 then 5 else if i = 1 then 7 else if i = 2 then 9 else 0 },
    iM := MATRIX.zero 3 1 }

/-- The skip policy with the diabatic recomputation switched on and the unknown
entanglement option 3. -/
def badEntanglementPolicy : dyn_control_params :=
  { skipPolicy with ham_update_method := 1, entanglement_opt := 3 }

/-- The skip policy with the unknown entanglement option 3. -/
def badEntanglementSkipPolicy : dyn_control_params :=
  { skipPolicy with entanglement_opt := 3 }

/-- The skip policy with the couplings computed from the momenta of the quantum degrees
of freedom 0 and 2. -/
def maskPolicy : dyn_control_params :=
  { skipPolicy with nac_update_method := 1, quantum_dofs := [0, 2] }

/-- The real 2 x 2 overlap `[[0, 1], [0, 0]]`. -/
def sampleOverlap : CMATRIX :=
  { n_rows := 2, n_cols := 2,
    re := fun i j => if i = 0 ∧ j = 1 then 1 else 0, im := fun _ _ => 0 }

/-- A root with two adiabatic states and one child whose stored time overlap is
`sampleOverlap`. -/
def overlapHam : nHamiltonian Nat :=
  { nadi := 2,
    children := [{ time_overlap_adi := sampleOverlap, nac_adi := CMATRIX.zero 2 2, data := 0 }],
    data := 0 }

/-- The skip policy with the couplings taken from the time overlaps by the direct
formula, for the timestep `dt`. -/
def directPolicy (dt : ℚ) : dyn_control_params :=
  { skipPolicy with nac_update_method := 2, nac_algo := 0, dt := dt }

/-- The skip policy with the internal diagonalization switched on. -/
def transformOnlyPolicy : dyn_control_params :=
  { skipPolicy with ham_transform_method := 1 }

/-- The skip policy with the undefined code 7 for `ham_update_method`. -/
def undefinedUpdatePolicy : dyn_control_params :=
  { skipPolicy with ham_update_method := 7 }

/-- The policy of the scenario: diabatic recomputation, internal diagonalization, no
entanglement correction, and the default codes 1 for couplings and vibronic Hamiltonian. -/
def scenarioPolicy : dyn_control_params :=
  { skipPolicy with ham_update_method := 1, ham_transform_method := 1,
                    nac_update_method := 1, hvib_update_method := 1 }

/-- The 2 x 2 identity as a stored overlap. -/
def identityOverlap : CMATRIX :=
  { n_rows := 2, n_cols := 2,
    re := fun i j => if i = j ∧ 0 ≤ i ∧ i < 2 then 1 else 0, im := fun _ _ => 0 }

/-- A root with two adiabatic states and one child whose stored time overlap is the
identity. -/
def identityHam : nHamiltonian Nat :=
  { nadi := 2,
    children := [{ time_overlap_adi := identityOverlap, nac_adi := sampleOverlap, data := 0 }],
    data := 0 }

/-- The skip policy with the couplings taken from the time overlaps by the
interpolation routine. -/
def npiPolicy : dyn_control_params :=
  { skipPolicy with nac_update_method := 2, nac_algo := 1 }

/-- The skip policy with the couplings taken from the time overlaps and the undefined
selector 7. -/
def undefinedAlgoPolicy : dyn_control_params :=
  { skipPolicy with nac_update_method := 2, nac_algo := 7 }

/-- A root with two adiabatic states and two children, with the stored overlaps
`sampleOverlap` and `st`. -/
def twoChildHam (st : CMATRIX) : nHamiltonian Nat :=
  { nadi := 2,
    children := [{ time_overlap_adi := sampleOverlap, nac_adi := CMATRIX.zero 2 2, data := 0 },
                 { time_overlap_adi := st, nac_adi := CMATRIX.zero 2 2, data := 1 }],
    data := 0 }

/-- A root with two adiabatic states and no children. -/
def emptyHam : nHamiltonian Nat := { nadi := 2, children := [], data := 0 }

end libdyn
end liblibra

/-! # The topology look-ups of `System_methods.cpp`

The classes `System`, `Atom`, `Group` and `Molecule` are declared outside the sources at
hand; the structures below hold the members that the embedded methods read.  Integer
flags are true when they are not zero.  A read outside a container is undefined in the
program; here such a read finds nothing. -/

namespace libchemobjects
namespace libchemsys

/-- Modelled from the spec: the members of an atom that the look-ups read (class `Atom`
is not in the sources). -/
structure Atom where
  is_Atom_id : Int
  Atom_id : Int
  globAtom_Adjacent_Atoms : List Int

/-- Modelled from the spec: the members of a group (fragment, bond, angle, dihedral) that
the look-ups read (class `Group` is not in the sources). -/
structure Group where
  is_Group_id : Int
  Group_id : Int
  globAtom_Index : List Int

/-- Modelled from the spec: the members of a molecule that the look-ups read (class
`Molecule` is not in the sources). -/
structure Molecule where
  is_Molecule_id : Int
  Molecule_id : Int

/-- Modelled from the spec: the registries of a `System` that the look-ups read (the
class is not in the sources). -/
structure System where
  Number_of_atoms : Int
  Atoms : List Atom
  Number_of_fragments : Int
  Fragments : List Group
  Number_of_molecules : Int
  Molecules : List Molecule
  Number_of_bonds : Int
  Bonds : List Group
  Number_of_angles : Int
  Angles : List Group
  Number_of_dihedrals : Int
  Dihedrals : List Group

/-- The method `System::get_atom_index_by_atom_id` (lines 10-20): the loop runs over all
of the first `Number_of_atoms` atoms and keeps the last index that matched. -/
def get_atom_index_by_atom_id (S : System) (id : Int) : Int :=
  (List.range S.Number_of_atoms.toNat).foldl
    (fun indx i =>
      match S.Atoms[i]? with
      | some a => if a.is_Atom_id ≠ 0 then (if a.Atom_id = id then (i : Int) else indx) else indx
      | none => indx)
    (-1)

/-- The method `System::get_fragment_index_by_fragment_id` (lines 22-32). -/
def get_fragment_index_by_fragment_id (S : System) (id : Int) : Int :=
  (List.range S.Number_of_fragments.toNat).foldl
    (fun indx i =>
      match S.Fragments[i]? with
      | some g => if g.is_Group_id ≠ 0 then (if g.Group_id = id then (i : Int) else indx) else indx
      | none => indx)
    (-1)

/-- The method `System::get_molecule_index_by_molecule_id` (lines 34-44). -/
def get_molecule_index_by_molecule_id (S : System) (id : Int) : Int :=
  (List.range S.Number_of_molecules.toNat).foldl
    (fun indx i =>
      match S.Molecules[i]? with
      | some m =>
        if m.is_Molecule_id ≠ 0 then (if m.Molecule_id = id then (i : Int) else indx) else indx
      | none => indx)
    (-1)

/-- The loop `res = -1; for(i = 0; i < n; i++){ if(hit i){ res = i; break; } } return res`,
with `k` turns left and the counter at `i`. -/
def search_with_break (hit : Nat → Bool) : Nat → Nat → Int
  | 0, _ => -1
  | k + 1, i => if hit i then (i : Int) else search_with_break hit k (i + 1)

/-- The member `globAtom_Index[k]` of a group. -/
def Group.atom (g : Group) (k : Nat) : Option Int := g.globAtom_Index[k]?

/-- The test of lines 55-56 on the bond with index `i`. -/
def bond_test (S : System) (at_indx1 at_indx2 : Int) (i : Nat) : Bool :=
  match S.Bonds[i]? with
  | some g =>
    decide ((g.atom 0 = some at_indx1 ∧ g.atom 1 = some at_indx2) ∨
      (g.atom 0 = some at_indx2 ∧ g.atom 1 = some at_indx1))
  | none => false

/-- The method `System::Find_Bond` (lines 47-60). -/
def Find_Bond (S : System) (at_indx1 at_indx2 : Int) : Int :=
  search_with_break (bond_test S at_indx1 at_indx2) S.Number_of_bonds.toNat 0

/-- The test of lines 101-102 on the angle with index `i`. -/
def angle_test (S : System) (at_indx1 at_indx2 at_indx3 : Int) (i : Nat) : Bool :=
  match S.Angles[i]? with
  | some g =>
    decide ((g.atom 0 = some at_indx1 ∧ g.atom 1 = some at_indx2 ∧ g.atom 2 = some at_indx3) ∨
      (g.atom 0 = some at_indx3 ∧ g.atom 1 = some at_indx2 ∧ g.atom 2 = some at_indx1))
  | none => false

/-- The method `System::Find_Angle` with three atom indices (lines 93-106). -/
def Find_Angle (S : System) (at_indx1 at_indx2 at_indx3 : Int) : Int :=
  search_with_break (angle_test S at_indx1 at_indx2 at_indx3) S.Number_of_angles.toNat 0

/-- The test of lines 116-125 on the dihedral with index `i`. -/
def dihedral_test (S : System) (at_indx1 at_indx2 at_indx3 at_indx4 : Int) (i : Nat) : Bool :=
  match S.Dihedrals[i]? with
  | some g =>
    decide ((g.atom 0 = some at_indx1 ∧ g.atom 1 = some at_indx2 ∧
        g.atom 2 = some at_indx3 ∧ g.atom 3 = some at_indx4) ∨
      (g.atom 0 = some at_indx4 ∧ g.atom 1 = some at_indx3 ∧
        g.atom 2 = some at_indx2 ∧ g.atom 3 = some at_indx1))
  | none => false

/-- The method `System::Find_Dihedral` (lines 108-129). -/
def Find_Dihedral (S : System) (at_indx1 at_indx2 at_indx3 at_indx4 : Int) : Int :=
  search_with_break (dihedral_test S at_indx1 at_indx2 at_indx3 at_indx4)
    S.Number_of_dihedrals.toNat 0

/-- The adjacency list `Atoms[at_indx].globAtom_Adjacent_Atoms`. -/
def adjacent (S : System) (at_indx : Int) : List Int :=
  if 0 ≤ at_indx then
    match S.Atoms[at_indx.toNat]? with
    | some a => a.globAtom_Adjacent_Atoms
    | none => []
  else []

/-- The method `System::is_12pair` (lines 144-156). -/
def is_12pair (S : System) (at_indx1 at_indx2 : Int) : Int :=
  (adjacent S at_indx1).foldl (fun res x => if x = at_indx2 then 1 else res) 0

/-- The method `System::is_14pair` (lines 174-189). -/
def is_14pair (S : System) (at_indx1 at_indx2 : Int) : Int :=
  (adjacent S at_indx1).foldl
    (fun res x =>
      (adjacent S at_indx2).foldl (fun res y => if is_12pair S x y ≠ 0 then 1 else res) res)
    0

/-- An entry of a registry of atoms with index `i` whose id flag is set and whose id is
`id`. -/
def atom_id_match (S : System) (id : Int) (i : Nat) : Prop :=
  ∃ a, S.Atoms[i]? = some a ∧ a.is_Atom_id ≠ 0 ∧ a.Atom_id = id

/-- The same for the registry of fragments. -/
def fragment_id_match (S : System) (id : Int) (i : Nat) : Prop :=
  ∃ g, S.Fragments[i]? = some g ∧ g.is_Group_id ≠ 0 ∧ g.Group_id = id

/-- The same for the registry of molecules. -/
def molecule_id_match (S : System) (id : Int) (i : Nat) : Prop :=
  ∃ m, S.Molecules[i]? = some m ∧ m.is_Molecule_id ≠ 0 ∧ m.Molecule_id = id

/-- The bond with index `i` has the endpoints `a` and `b`, in either order. -/
def bond_match (S : System) (a b : Int) (i : Nat) : Prop :=
  ∃ g, S.Bonds[i]? = some g ∧
    ((g.atom 0 = some a ∧ g.atom 1 = some b) ∨ (g.atom 0 = some b ∧ g.atom 1 = some a))

/-- What it means for `res` to be the answer of a look-up that keeps the last match among
the indices below `n`: it is -1 exactly when nothing matches, and otherwise it is the
largest matching index. -/
def IsLastMatch (n : Nat) (M : Nat → Prop) (res : Int) : Prop :=
  (res = -1 ↔ ∀ i, i < n → ¬ M i) ∧
  (res = -1 ∨ ∃ i, i < n ∧ res = (i : Int) ∧ M i ∧ ∀ j, j < n → M j → j ≤ i)

/-- What it means for `res` to be the answer of a look-up that stops at the first match
among the indices below `n`: it is -1 exactly when nothing matches, and otherwise it is
the smallest matching index. -/
def IsFirstMatch (n : Nat) (M : Nat → Prop) (res : Int) : Prop :=
  (res = -1 ↔ ∀ i, i < n → ¬ M i) ∧
  (res = -1 ∨ ∃ i, i < n ∧ res = (i : Int) ∧ M i ∧ ∀ j, j < i → ¬ M j)

end libchemsys
end libchemobjects

/-! # The momentum propagation of `Nuclear.cpp`

Real numbers are exact rationals.  The members of `Nuclear` are those its constructor
(lines 9-17) sets.  An index outside the vectors is undefined in the program; here the
statement `p[i] += dt*f[i]` does nothing for such an index. -/

namespace libdyn
namespace libnuclear

/-- The members of the class `Nuclear`, as the constructor of lines 9-17 sets them. -/
structure Nuclear where
  nnucl : Int
  mass : List ℚ
  q : List ℚ
  p : List ℚ
  f : List ℚ
  ctyp : List Int

/-- The statement `p[i] += dt*f[i]`, which is the body of all three overloads of
`propagate_p`. -/
def Nuclear.add_dt_f (N : Nuclear) (i : Int) (dt : ℚ) : Nuclear :=
  if 0 ≤ i ∧ i.toNat < N.p.length then
    { N with p := N.p.set i.toNat (N.p.getD i.toNat 0 + dt * N.f.getD i.toNat 0) }
  else N

/-- The overload `Nuclear::propagate_p(int i, double dt)` (line 20). -/
def Nuclear.propagate_p_at (N : Nuclear) (i : Int) (dt : ℚ) : Nuclear :=
  N.add_dt_f i dt

/-- The overload `Nuclear::propagate_p(double dt)` (line 21): the loop over
`i = 0, ..., nnucl - 1`. -/
def Nuclear.propagate_p (N : Nuclear) (dt : ℚ) : Nuclear :=
  (List.range N.nnucl.toNat).foldl (fun acc (i : Nat) => acc.add_dt_f (i : Int) dt) N

/-- The overload `Nuclear::propagate_p(double dt, vector<int>& active)` (lines 22-24): the
loop takes `I = active[0], ..., active[sz - 1]` in turn. -/
def Nuclear.propagate_p_active (N : Nuclear) (dt : ℚ) (active : List Int) : Nuclear :=
  active.foldl (fun acc I => acc.add_dt_f I dt) N

/-- Three nuclei with momenta `[1, 2, 3]` and forces `[10, 20, 30]`. -/
def sampleNuclear : Nuclear :=
  { nnucl := 3, mass := [2000, 2000, 2000], q := [0, 0, 0], p := [1, 2, 3],
    f := [10, 20, 30], ctyp := [0, 0, 0] }

end libnuclear
end libdyn

namespace liblibra
namespace libdyn

/-! ## Theorems -/

theorem replay_nil {Py X : Type} (C : Collaborators Py X) (r : Run Py X) :
    r.replay C [] = r := rfl

theorem replay_cons {Py X : Type} (C : Collaborators Py X) (c : Call Py)
    (cs : List (Call Py)) (r : Run Py X) :
    r.replay C (c :: cs) = (r.invoke C c).replay C cs := rfl

theorem replay_append {Py X : Type} (C : Collaborators Py X) (cs ds : List (Call Py))
    (r : Run Py X) : r.replay C (cs ++ ds) = (r.replay C cs).replay C ds := by
  simp [Run.replay, List.foldl_append]

theorem replay_dyn_var {Py X : Type} (C : Collaborators Py X) (cs : List (Call Py))
    (r : Run Py X) : (r.replay C cs).dyn_var = r.dyn_var := by
  induction cs generalizing r with
  | nil => rfl
  | cons c cs ih => rw [replay_cons, ih]; rfl

theorem replay_calls {Py X : Type} (C : Collaborators Py X) (cs : List (Call Py))
    (r : Run Py X) : (r.replay C cs).calls = r.calls ++ cs := by
  induction cs generalizing r with
  | nil => simp [replay_nil]
  | cons c cs ih => rw [replay_cons, ih]; simp [Run.invoke]

theorem replay_ham {Py X : Type} (C : Collaborators Py X) (cs : List (Call Py))
    (r : Run Py X) :
    (r.replay C cs).ham = cs.foldl (fun h c => C.perform c h) r.ham := by
  induction cs generalizing r with
  | nil => rfl
  | cons c cs ih => rw [replay_cons, ih]; rfl

theorem energy_step_eq {Py X : Type} (C : Collaborators Py X) (prms : dyn_control_params)
    (py_funct model_params : Py) (r : Run Py X) :
    energy_step C prms py_funct model_params r =
      r.replay C (spec_energy_ops prms py_funct model_params r.dyn_var.q) := by
  unfold energy_step spec_energy_ops
  by_cases h0 : prms.ham_update_method = 0
  · simp [h0, replay_nil]
  by_cases h1 : prms.ham_update_method = 1
  · simp [h1, replay_cons, replay_nil]
  by_cases h2 : prms.ham_update_method = 2
  · simp [h2, replay_cons, replay_nil]
  simp [h0, h1, h2, replay_nil]

theorem transform_step_eq {Py X : Type} (C : Collaborators Py X)
    (prms : dyn_control_params) (r : Run Py X) :
    transform_step C prms r = r.replay C (spec_transform_ops prms) := by
  unfold transform_step spec_transform_ops
  by_cases h0 : prms.ham_transform_method = 0
  · simp [h0, replay_nil]
  by_cases h1 : prms.ham_transform_method = 1
  · simp [h1, replay_cons, replay_nil]
  simp [h0, h1, replay_nil]

theorem entanglement_step_eq {Py X : Type} (C : Collaborators Py X)
    (prms : dyn_control_params) (r : Run Py X)
    (h : prms.entanglement_opt = 0 ∨ prms.entanglement_opt = 1 ∨
      prms.entanglement_opt = 2 ∨ prms.entanglement_opt = 22) :
    entanglement_step C prms r =
      Outcome.returned (r.replay C (spec_entanglement_ops prms r.dyn_var)) := by
  unfold entanglement_step spec_entanglement_ops
  rcases h with h | h | h | h <;> simp [h, replay_cons, replay_nil]

theorem hvib_step_eq {Py X : Type} (C : Collaborators Py X)
    (prms : dyn_control_params) (r : Run Py X) :
    hvib_step C prms r = r.replay C (spec_hvib_ops prms) := by
  unfold hvib_step spec_hvib_ops
  by_cases h0 : prms.hvib_update_method = 0
  · simp [h0, replay_nil]
  by_cases h1 : prms.hvib_update_method = 1
  · simp [h1, replay_cons, replay_nil]
  simp [h0, h1, replay_nil]

theorem phase_A_failure {Py X : Type} (C : Collaborators Py X) (prms : dyn_control_params)
    (py_funct model_params : Py) (r : Run Py X) :
    phase_A C prms py_funct model_params r =
      if prms.entanglement_opt = 0 ∨ prms.entanglement_opt = 1 ∨
          prms.entanglement_opt = 2 ∨ prms.entanglement_opt = 22 then
        Outcome.returned (phase_A C prms py_funct model_params r).run
      else
        Outcome.exited 0 (entanglement_error prms.entanglement_opt)
          (transform_step C prms (energy_step C prms py_funct model_params r)) := by
  unfold phase_A entanglement_step
  by_cases h0 : prms.entanglement_opt = 0
  · simp [h0, Outcome.run]
  by_cases h1 : prms.entanglement_opt = 1
  · simp [h1, Outcome.run]
  by_cases h2 : prms.entanglement_opt = 2
  · simp [h2, Outcome.run]
  by_cases h3 : prms.entanglement_opt = 22
  · simp [h3, Outcome.run]
  simp [h0, h1, h2, h3]

theorem update_type0_eq {Py X : Type} (C : Collaborators Py X)
    (prms : dyn_control_params) (dyn_var : dyn_variables) (ham : nHamiltonian X)
    (py_funct model_params : Py) :
    update_Hamiltonian_variables C prms dyn_var ham py_funct model_params 0 =
      if prms.entanglement_opt = 0 ∨ prms.entanglement_opt = 1 ∨
          prms.entanglement_opt = 2 ∨ prms.entanglement_opt = 22 then
        Outcome.returned (phase_B C prms (phase_A C prms py_funct model_params
          { dyn_var := dyn_var, ham := ham, calls := [] }).run)
      else
        Outcome.exited 0 (entanglement_error prms.entanglement_opt)
          (transform_step C prms (energy_step C prms py_funct model_params
            { dyn_var := dyn_var, ham := ham, calls := [] })) := by
  simp only [update_Hamiltonian_variables, if_true, true_or]
  rw [phase_A_failure]
  by_cases h : prms.entanglement_opt = 0 ∨ prms.entanglement_opt = 1 ∨
      prms.entanglement_opt = 2 ∨ prms.entanglement_opt = 22
  · simp [h, Outcome.run]
  · simp [h]

theorem update_type1_eq {Py X : Type} (C : Collaborators Py X)
    (prms : dyn_control_params) (dyn_var : dyn_variables) (ham : nHamiltonian X)
    (py_funct model_params : Py) :
    update_Hamiltonian_variables C prms dyn_var ham py_funct model_params 1 =
      Outcome.returned (phase_B C prms { dyn_var := dyn_var, ham := ham, calls := [] }) := by
  simp [update_Hamiltonian_variables]

theorem update_type_other_eq {Py X : Type} (C : Collaborators Py X)
    (prms : dyn_control_params) (dyn_var : dyn_variables) (ham : nHamiltonian X)
    (py_funct model_params : Py) (update_type : Int) (h0 : update_type ≠ 0)
    (h1 : update_type ≠ 1) :
    update_Hamiltonian_variables C prms dyn_var ham py_funct model_params update_type =
      Outcome.returned { dyn_var := dyn_var, ham := ham, calls := [] } := by
  simp [update_Hamiltonian_variables, h0, h1]

/-- C1: with `update_type = 0` the call returns when `entanglement_opt` is one of 0, 1,
2, 22, and otherwise ends in `exit` after writing to `cout` an error text that contains
the value of `entanglement_opt`; no other policy field matters for this. -/
theorem update_type0_ends_by_entanglement_opt {Py X : Type} (C : Collaborators Py X)
    (prms : dyn_control_params) (dyn_var : dyn_variables) (ham : nHamiltonian X)
    (py_funct model_params : Py) :
    (update_Hamiltonian_variables C prms dyn_var ham py_funct model_params 0).failure =
      if prms.entanglement_opt = 0 ∨ prms.entanglement_opt = 1 ∨
          prms.entanglement_opt = 2 ∨ prms.entanglement_opt = 22 then none
      else some (0, "ERROR in update_Hamiltonian_q_ethd: The entanglement option = "
        ++ toString prms.entanglement_opt ++ " is not avaialable\n") := by
  rw [update_type0_eq]
  by_cases h : prms.entanglement_opt = 0 ∨ prms.entanglement_opt = 1 ∨
      prms.entanglement_opt = 2 ∨ prms.entanglement_opt = 22
  · simp [h, Outcome.failure]
  · simp [h, Outcome.failure, entanglement_error]

/-- C2, counterexample: with `ham_update_method = 1` and the unknown entanglement option
3 the call ends in `exit` only after `compute_diabatic` has been called, and the
Hamiltonian at that point differs from the one before the call. -/
theorem config_error_after_diabatic_update :
    (update_Hamiltonian_variables countingCollab badEntanglementPolicy sampleVars emptyHam
        () () 0).failure = some (0, entanglement_error 3) ∧
    (update_Hamiltonian_variables countingCollab badEntanglementPolicy sampleVars emptyHam
        () () 0).run.calls = [Call.compute_diabatic () sampleVars.q () 1] ∧
    (update_Hamiltonian_variables countingCollab badEntanglementPolicy sampleVars emptyHam
        () () 0).run.ham ≠ emptyHam := by
  refine ⟨rfl, rfl, ?_⟩
  intro h
  have h2 := congrArg nHamiltonian.data h
  revert h2
  decide

/-- C2, amended: when `entanglement_opt` is not one of 0, 1, 2, 22 and `update_type = 0`,
the call ends in `exit` right after the energy and the transform step: the calls made
are those of these two steps and no other, the Hamiltonian at that point is the result
of these calls, and it is the Hamiltonian from before the call unless
`ham_update_method` is 1 or 2 or `ham_transform_method` is 1. -/
theorem config_error_follows_energy_and_transform {Py X : Type} (C : Collaborators Py X)
    (prms : dyn_control_params) (dyn_var : dyn_variables) (ham : nHamiltonian X)
    (py_funct model_params : Py)
    (h : ¬ (prms.entanglement_opt = 0 ∨ prms.entanglement_opt = 1 ∨
      prms.entanglement_opt = 2 ∨ prms.entanglement_opt = 22)) :
    (∃ r, update_Hamiltonian_variables C prms dyn_var ham py_funct model_params 0 =
        Outcome.exited 0 (entanglement_error prms.entanglement_opt) r ∧
      r.dyn_var = dyn_var ∧
      r.calls = spec_energy_ops prms py_funct model_params dyn_var.q ++
        spec_transform_ops prms ∧
      r.ham = (spec_energy_ops prms py_funct model_params dyn_var.q ++
        spec_transform_ops prms).foldl (fun hm c => C.perform c hm) ham ∧
      (prms.ham_update_method = 1 ∨ prms.ham_update_method = 2 ∨
        prms.ham_transform_method = 1 ∨ (r.ham = ham ∧ r.calls = []))) := by
  refine ⟨transform_step C prms (energy_step C prms py_funct model_params
    { dyn_var := dyn_var, ham := ham, calls := [] }), ?_, ?_, ?_, ?_, ?_⟩
  · rw [update_type0_eq, if_neg h]
  · rw [transform_step_eq, energy_step_eq, replay_dyn_var, replay_dyn_var]
  · rw [transform_step_eq, energy_step_eq, ← replay_append, replay_calls]
    simp
  · rw [transform_step_eq, energy_step_eq, ← replay_append, replay_ham]
  · by_cases h1 : prms.ham_update_method = 1
    · exact Or.inl h1
    by_cases h2 : prms.ham_update_method = 2
    · exact Or.inr (Or.inl h2)
    by_cases h3 : prms.ham_transform_method = 1
    · exact Or.inr (Or.inr (Or.inl h3))
    refine Or.inr (Or.inr (Or.inr ?_))
    rw [transform_step_eq, energy_step_eq]
    simp [spec_energy_ops, spec_transform_ops, h1, h2, h3, replay_nil]

/-- Witness for C2 (amended): the skip policy with the unknown entanglement option 3. -/
theorem config_error_follows_energy_and_transform_witness :
    ∃ r, update_Hamiltonian_variables countingCollab badEntanglementSkipPolicy sampleVars
        emptyHam () () 0 = Outcome.exited 0 (entanglement_error 3) r ∧
      r.dyn_var = sampleVars ∧
      r.calls = spec_energy_ops badEntanglementSkipPolicy () () sampleVars.q ++
        spec_transform_ops badEntanglementSkipPolicy ∧
      r.ham = (spec_energy_ops badEntanglementSkipPolicy () () sampleVars.q ++
        spec_transform_ops badEntanglementSkipPolicy).foldl
          (fun hm c => countingCollab.perform c hm) emptyHam ∧
      (badEntanglementSkipPolicy.ham_update_method = 1 ∨
        badEntanglementSkipPolicy.ham_update_method = 2 ∨
        badEntanglementSkipPolicy.ham_transform_method = 1 ∨
        (r.ham = emptyHam ∧ r.calls = [])) :=
  config_error_follows_energy_and_transform countingCollab badEntanglementSkipPolicy
    sampleVars emptyHam () () (by decide)

theorem MATRIX.set_n_rows (m : MATRIX) (r c : Int) (x : ℚ) : (m.set r c x).n_rows = m.n_rows := by
  unfold MATRIX.set; split_ifs <;> rfl

theorem MATRIX.set_n_cols (m : MATRIX) (r c : Int) (x : ℚ) : (m.set r c x).n_cols = m.n_cols := by
  unfold MATRIX.set; split_ifs <;> rfl

theorem MATRIX.get_set (m : MATRIX) (r c : Int) (x : ℚ) (i j : Int) :
    (m.set r c x).get i j =
      if (0 ≤ r ∧ r < m.n_rows ∧ 0 ≤ c ∧ c < m.n_cols) ∧ i = r ∧ j = c then x
      else m.get i j := by
  unfold MATRIX.set MATRIX.get
  by_cases h : 0 ≤ r ∧ r < m.n_rows ∧ 0 ≤ c ∧ c < m.n_cols
  · simp [h]
  · simp [h]

/-- The inner loop of lines 135-137 over the trajectories of one degree of freedom. -/
theorem mask_row_spec (p : MATRIX) (dof : Int) (L : List Nat) (acc : MATRIX) :
    (L.foldl (fun a itraj => a.set dof itraj (p.get dof itraj)) acc).n_rows = acc.n_rows ∧
    (L.foldl (fun a itraj => a.set dof itraj (p.get dof itraj)) acc).n_cols = acc.n_cols ∧
    ∀ i j : Int,
      (L.foldl (fun a (itraj : Nat) => a.set dof itraj (p.get dof itraj)) acc).get i j =
        if i = dof ∧ (0 ≤ dof ∧ dof < acc.n_rows) ∧ (∃ it ∈ L, (it : Int) = j) ∧
            j < acc.n_cols then p.get i j
        else acc.get i j := by
  induction L generalizing acc with
  | nil => simp
  | cons a L ih =>
    rw [List.foldl_cons]
    obtain ⟨h1, h2, h3⟩ := ih (acc.set dof a (p.get dof a))
    refine ⟨by rw [h1, MATRIX.set_n_rows], by rw [h2, MATRIX.set_n_cols], ?_⟩
    intro i j
    rw [h3, MATRIX.get_set, MATRIX.set_n_rows, MATRIX.set_n_cols]
    by_cases hi : i = dof
    · subst hi
      by_cases hj : j = (a : Int)
      · subst hj
        by_cases hr : 0 ≤ i ∧ i < (acc.n_rows : Int)
        · by_cases hc : (a : Int) < acc.n_cols
          · simp [hr, hc]
          · simp [hr, hc]
        · simp only [hr, false_and, and_false, if_false]
          rw [if_neg]
          rintro ⟨⟨h0, h1, _⟩, _⟩
          exact hr ⟨h0, h1⟩
      · have hj' : ¬ ((a : Int) = j) := fun h => hj h.symm
        simp [hj, hj']
    · simp [hi]
/-- The two nested loops of lines 135-137, started from any matrix `acc` with `ntraj`
columns. -/
theorem mask_loops_spec (p : MATRIX) (ntraj : Nat) (D : List Int) (acc : MATRIX)
    (hc : acc.n_cols = ntraj) :
    (D.foldl (fun a dof =>
        (List.range ntraj).foldl (fun b (itraj : Nat) => b.set dof itraj (p.get dof itraj)) a)
      acc).n_rows = acc.n_rows ∧
    (D.foldl (fun a dof =>
        (List.range ntraj).foldl (fun b (itraj : Nat) => b.set dof itraj (p.get dof itraj)) a)
      acc).n_cols = acc.n_cols ∧
    ∀ i j : Int, 0 ≤ i → i < acc.n_rows → 0 ≤ j → j < ntraj →
      (D.foldl (fun a dof =>
          (List.range ntraj).foldl (fun b (itraj : Nat) => b.set dof itraj (p.get dof itraj)) a)
        acc).get i j = if i ∈ D then p.get i j else acc.get i j := by
  induction D generalizing acc with
  | nil => simp
  | cons d D ih =>
    rw [List.foldl_cons]
    obtain ⟨g1, g2, g3⟩ := mask_row_spec p d (List.range ntraj) acc
    obtain ⟨h1, h2, h3⟩ := ih _ (g2.trans hc)
    refine ⟨h1.trans g1, h2.trans g2, ?_⟩
    intro i j hi0 hi1 hj0 hj1
    rw [h3 i j hi0 (by rw [g1]; exact hi1) hj0 hj1, g3]
    have hex : ∃ it ∈ List.range ntraj, (it : Int) = j :=
      ⟨j.toNat, by simp [List.mem_range]; omega, by omega⟩
    have hjc : j < (acc.n_cols : Int) := by rw [hc]; exact hj1
    by_cases hiD : i ∈ D
    · simp [hiD]
    · rw [if_neg hiD]
      by_cases hid : i = d
      · subst hid
        rw [if_pos ⟨rfl, ⟨hi0, hi1⟩, hex, hjc⟩, if_pos (List.mem_cons_self _ _)]
      · rw [if_neg (fun h => hid h.1), if_neg (by simp [hid, hiD])]
/-- C3: with `nac_update_method = 1` (seen here in a call with `update_type = 1`) the
matrix handed to `compute_nac_dia` and to `compute_nac_adi` is `p_quantum_dof`; it has
`ndof` rows and `ntraj` columns, and its entry at a degree of freedom `d` and a
trajectory `t` is `p[d][t]` when `d` is among `quantum_dofs` and 0 otherwise. -/
theorem masked_momentum_entries {Py X : Type} (C : Collaborators Py X)
    (prms : dyn_control_params) (dyn_var : dyn_variables) (ham : nHamiltonian X)
    (py_funct model_params : Py) (d t : Int)
    (hm : prms.nac_update_method = 1)
    (hd0 : 0 ≤ d) (hd : d < dyn_var.ndof) (ht0 : 0 ≤ t) (ht : t < dyn_var.ntraj) :
    (update_Hamiltonian_variables C prms dyn_var ham py_funct model_params 1).run.calls =
      [Call.compute_nac_dia (p_quantum_dof prms dyn_var) dyn_var.iM 0 1,
       Call.compute_nac_adi (p_quantum_dof prms dyn_var) dyn_var.iM 0 1] ++
        spec_hvib_ops prms ∧
    (p_quantum_dof prms dyn_var).n_rows = dyn_var.ndof ∧
    (p_quantum_dof prms dyn_var).n_cols = dyn_var.ntraj ∧
    (p_quantum_dof prms dyn_var).get d t =
      if d ∈ prms.quantum_dofs then dyn_var.p.get d t else 0 := by
  obtain ⟨h1, h2, h3⟩ := mask_loops_spec dyn_var.p dyn_var.ntraj prms.quantum_dofs
    (MATRIX.zero dyn_var.ndof dyn_var.ntraj) rfl
  refine ⟨?_, ?_, ?_, ?_⟩
  · rw [update_type1_eq]
    simp [Outcome.run, phase_B, hvib_step_eq, replay_calls, coupling_step, hm, Run.invoke]
  · unfold p_quantum_dof; exact h1
  · unfold p_quantum_dof; exact h2
  · unfold p_quantum_dof; exact h3 d t hd0 hd ht0 ht

/-- Witness for C3: three degrees of freedom, `quantum_dofs = {0, 2}` and the momentum
`[5, 7, 9]` of one trajectory give `[5, 0, 9]`. -/
theorem masked_momentum_entries_witness :
    (p_quantum_dof maskPolicy sampleVars).get 0 0 = 5 ∧
    (p_quantum_dof maskPolicy sampleVars).get 1 0 = 0 ∧
    (p_quantum_dof maskPolicy sampleVars).get 2 0 = 9 :=
  ⟨(masked_momentum_entries countingCollab maskPolicy sampleVars emptyHam () () 0 0 rfl
      (by decide) (by decide) (by decide) (by decide)).2.2.2,
   (masked_momentum_entries countingCollab maskPolicy sampleVars emptyHam () () 1 0 rfl
      (by decide) (by decide) (by decide) (by decide)).2.2.2,
   (masked_momentum_entries countingCollab maskPolicy sampleVars emptyHam () () 2 0 rfl
      (by decide) (by decide) (by decide) (by decide)).2.2.2⟩

theorem map_modify_of_invariant {α β : Type} (f : α → α) (g : α → β)
    (hfg : ∀ a, g (f a) = g a) (l : List α) (n : Nat) :
    (l.modify f n).map g = l.map g := by
  induction l generalizing n with
  | nil => cases n <;> simp [List.modify]
  | cons a l ih =>
    cases n with
    | zero => simp [List.modify, hfg]
    | succ n => simpa [List.modify] using ih n

theorem set_child_nac_overlaps {X : Type} (ham : nHamiltonian X) (traj : Nat)
    (nac : CMATRIX) :
    (ham.set_child_nac traj nac).children.map Node.time_overlap_adi =
      ham.children.map Node.time_overlap_adi := by
  unfold nHamiltonian.set_child_nac
  exact map_modify_of_invariant (fun nd => nd.set_nac_adi_by_val nac) Node.time_overlap_adi
    (fun _ => rfl) ham.children traj

/-- Stores of couplings leave the number of states and every stored time overlap as
they are. -/
theorem replay_stores_overlaps {Py X : Type} (C : Collaborators Py X)
    (cs : List (Call Py)) (r : Run Py X)
    (hcs : ∀ c ∈ cs, ∃ traj nac, c = Call.set_nac_adi_by_val traj nac) :
    (r.replay C cs).ham.nadi = r.ham.nadi ∧
    (r.replay C cs).ham.children.map Node.time_overlap_adi =
      r.ham.children.map Node.time_overlap_adi := by
  induction cs generalizing r with
  | nil => exact ⟨rfl, rfl⟩
  | cons c cs ih =>
    obtain ⟨traj, nac, rfl⟩ := hcs c (List.mem_cons_self _ _)
    obtain ⟨h1, h2⟩ := ih (r.invoke C (Call.set_nac_adi_by_val traj nac))
      (fun c hc => hcs c (List.mem_cons_of_mem _ hc))
    rw [replay_cons]
    refine ⟨h1, h2.trans ?_⟩
    exact set_child_nac_overlaps r.ham traj nac

theorem nac_of_overlap_eq {Py X : Type} (C : Collaborators Py X)
    (prms : dyn_control_params) (nst : Nat) (st nac : CMATRIX)
    (hnac : prms.nac_algo ≠ 0 → prms.nac_algo ≠ 1 → nac = CMATRIX.zero nst nst) :
    nac_of_overlap C prms (MATRIX.zero nst nst) st nac = overlap_nac C prms nst st := by
  unfold nac_of_overlap overlap_nac
  by_cases h0 : prms.nac_algo = 0
  · simp [h0]
  by_cases h1 : prms.nac_algo = 1
  · simp [h1]
  simp [h0, h1, hnac h0 h1]

/-- The loop of lines 158-170 after its first `k` turns. -/
theorem nac_loop_prefix {Py X : Type} (C : Collaborators Py X)
    (prms : dyn_control_params) (r : Run Py X) (k : Nat) (hk : k ≤ r.ham.children.length) :
    ∃ nac, (List.range k).foldl (nac_loop_body C prms (MATRIX.zero r.ham.nadi r.ham.nadi))
        (r, CMATRIX.zero r.ham.nadi r.ham.nadi) =
        (r.replay C ((r.ham.children.take k).enum.map
          (fun tc => Call.set_nac_adi_by_val tc.1
            (overlap_nac C prms r.ham.nadi tc.2.time_overlap_adi))), nac) ∧
      (prms.nac_algo ≠ 0 → prms.nac_algo ≠ 1 → nac = CMATRIX.zero r.ham.nadi r.ham.nadi) := by
  induction k with
  | zero => exact ⟨_, rfl, fun _ _ => rfl⟩
  | succ k ih =>
    obtain ⟨nac, hfold, hnac⟩ := ih (Nat.le_of_succ_le hk)
    have hlt : k < r.ham.children.length := hk
    obtain ⟨_, hov⟩ := replay_stores_overlaps C
      ((r.ham.children.take k).enum.map
        (fun tc => Call.set_nac_adi_by_val tc.1
          (overlap_nac C prms r.ham.nadi tc.2.time_overlap_adi))) r
      (by
        intro c hc
        obtain ⟨tc, _, rfl⟩ := List.mem_map.1 hc
        exact ⟨_, _, rfl⟩)
    have hget := congrArg (fun l => l[k]?) hov
    simp only [List.getElem?_map, List.getElem?_eq_getElem hlt, Option.map_some'] at hget
    obtain ⟨child, hchild, hst⟩ := Option.map_eq_some'.1 hget
    refine ⟨overlap_nac C prms r.ham.nadi (r.ham.children[k]).time_overlap_adi, ?_, ?_⟩
    · rw [List.range_succ, List.foldl_append, hfold, List.foldl_cons, List.foldl_nil]
      unfold nac_loop_body
      simp only [hchild]
      rw [Node.get_time_overlap_adi, hst, nac_of_overlap_eq C prms _ _ _ hnac,
        List.take_succ, List.getElem?_eq_getElem hlt, Option.toList, List.enum_append,
        List.map_append, replay_append, List.length_take, Nat.min_eq_left (Nat.le_of_lt hlt),
        List.enumFrom_singleton, List.map_singleton, replay_cons, replay_nil]
    · intro h0 h1
      simp [overlap_nac, h0, h1]

/-- The loop over the trajectories makes one store per trajectory, in trajectory order,
each with the coupling computed from that trajectory's own time overlap as it was before
the loop. -/
theorem nac_by_overlap_eq {Py X : Type} (C : Collaborators Py X)
    (prms : dyn_control_params) (r : Run Py X) :
    nac_by_overlap C prms r = r.replay C (spec_overlap_ops C prms r.ham) := by
  obtain ⟨nac, hfold, _⟩ := nac_loop_prefix C prms r r.ham.children.length (Nat.le_refl _)
  unfold nac_by_overlap spec_overlap_ops
  simp only [hfold, List.take_length]

theorem coupling_step_eq {Py X : Type} (C : Collaborators Py X)
    (prms : dyn_control_params) (r : Run Py X) :
    coupling_step C prms r = r.replay C (spec_coupling_ops C prms r.dyn_var r.ham) := by
  unfold coupling_step spec_coupling_ops
  by_cases h0 : prms.nac_update_method = 0
  · simp [h0, replay_nil]
  by_cases h1 : prms.nac_update_method = 1
  · simp [h1, replay_cons, replay_nil]
  by_cases h2 : prms.nac_update_method = 2
  · simp [h2, nac_by_overlap_eq]
  simp [h0, h1, h2, replay_nil]

theorem nac_direct_re (dt : ℚ) (st : CMATRIX) (i j : Int) :
    (nac_direct dt st).re i j = (1 / 2 : ℚ) * dt * (st.re i j - st.re j i) := rfl

theorem nac_direct_im (dt : ℚ) (st : CMATRIX) (i j : Int) :
    (nac_direct dt st).im i j = (1 / 2 : ℚ) * dt * (st.im i j - - st.im j i) := rfl

theorem phase_B_eq {Py X : Type} (C : Collaborators Py X) (prms : dyn_control_params)
    (r : Run Py X) :
    phase_B C prms r =
      r.replay C (spec_coupling_ops C prms r.dyn_var r.ham ++ spec_hvib_ops prms) := by
  rw [phase_B, hvib_step_eq, coupling_step_eq, replay_append]

/-- The call ends in `exit` exactly when `update_type = 0` and `entanglement_opt` is not
one of 0, 1, 2, 22. -/
theorem update_failure {Py X : Type} (C : Collaborators Py X)
    (prms : dyn_control_params) (dyn_var : dyn_variables) (ham : nHamiltonian X)
    (py_funct model_params : Py) (update_type : Int) :
    (update_Hamiltonian_variables C prms dyn_var ham py_funct model_params
        update_type).failure =
      if update_type = 0 ∧ ¬ (prms.entanglement_opt = 0 ∨ prms.entanglement_opt = 1 ∨
          prms.entanglement_opt = 2 ∨ prms.entanglement_opt = 22) then
        some (0, entanglement_error prms.entanglement_opt)
      else none := by
  by_cases h0 : update_type = 0
  · subst h0
    rw [update_type0_eq]
    by_cases h : prms.entanglement_opt = 0 ∨ prms.entanglement_opt = 1 ∨
        prms.entanglement_opt = 2 ∨ prms.entanglement_opt = 22
    · simp [h, Outcome.failure]
    · simp [h, Outcome.failure]
  · by_cases h1 : update_type = 1
    · subst h1
      rw [update_type1_eq]
      simp [Outcome.failure]
    · rw [update_type_other_eq C prms dyn_var ham py_funct model_params update_type h0 h1]
      simp [Outcome.failure, h0]

/-- C4, the code at a failing input: for the overlap `S = [[0, 1], [0, 0]]` and
`dt = 2` the direct selector stores `NAC[0][1] = 0.5 * dt * (S[0][1] - S[1][0]) = 1`,
whereas `(S[0][1] - S[1][0]) / (2 * dt)` is `1 / 4`. -/
theorem direct_nac_multiplies_by_dt :
    (update_Hamiltonian_variables countingCollab (directPolicy 2) sampleVars overlapHam
        () () 1).run.ham.children.map (fun nd => nd.nac_adi.re 0 1) = [1] ∧
    overlapHam.children.map (fun nd =>
        (nd.time_overlap_adi.re 0 1 - nd.time_overlap_adi.re 1 0) / (2 * (directPolicy 2).dt))
      = [1 / 4] := by
  constructor
  · have h : (update_Hamiltonian_variables countingCollab (directPolicy 2) sampleVars
        overlapHam () () 1).run.ham.children.map Node.nac_adi =
        [nac_direct 2 sampleOverlap] := rfl
    have h2 := congrArg (List.map (fun m : CMATRIX => m.re 0 1)) h
    rw [List.map_map] at h2
    rw [show (fun nd : Node Nat => nd.nac_adi.re 0 1) =
      (fun m : CMATRIX => m.re 0 1) ∘ Node.nac_adi from rfl, h2]
    simp only [List.map_cons, List.map_nil, nac_direct_re, sampleOverlap]
    norm_num
  · simp only [overlapHam, sampleOverlap, directPolicy, List.map_cons, List.map_nil]
    norm_num
theorem spec_overlap_ops_stored_on {Py X : Type} (C : Collaborators Py X)
    (prms : dyn_control_params) (ham : nHamiltonian X) :
    (spec_overlap_ops C prms ham : List (Call Py)).map Call.stored_on =
      (List.range ham.children.length).map some := by
  unfold spec_overlap_ops
  rw [List.map_map, ← List.enum_map_fst, List.map_map]
  rfl

/-- C5, counterexample: with `nac_update_method = 2`, `nac_algo = 0` and `dt = 0` the
call returns without an error, having stored on the one trajectory node a matrix all of
whose entries are zero. -/
theorem zero_dt_stores_zero_matrix :
    (update_Hamiltonian_variables countingCollab (directPolicy 0) sampleVars overlapHam
        () () 1).failure = none ∧
    (update_Hamiltonian_variables countingCollab (directPolicy 0) sampleVars overlapHam
        () () 1).run.calls = [Call.set_nac_adi_by_val 0 (nac_direct 0 sampleOverlap)] ∧
    (update_Hamiltonian_variables countingCollab (directPolicy 0) sampleVars overlapHam
        () () 1).run.ham.children.map Node.nac_adi = [nac_direct 0 sampleOverlap] ∧
    ∀ i j : Int, (nac_direct 0 sampleOverlap).re i j = 0 ∧
      (nac_direct 0 sampleOverlap).im i j = 0 := by
  refine ⟨rfl, rfl, rfl, ?_⟩
  intro i j
  simp [nac_direct_re, nac_direct_im]

/-- C5, amended: with `nac_update_method = 2` and `dt = 0` no error is raised on account
of `dt`, whatever the selector `nac_algo`: the call ends in `exit` only for
`update_type = 0` with an unknown `entanglement_opt`, and with `update_type = 1` it
returns after one store per trajectory node, in trajectory order, followed by the
vibronic-Hamiltonian step. -/
theorem zero_dt_raises_no_error {Py X : Type} (C : Collaborators Py X)
    (prms : dyn_control_params) (dyn_var : dyn_variables) (ham : nHamiltonian X)
    (py_funct model_params : Py)
    (hm : prms.nac_update_method = 2) (_hdt : prms.dt = 0) :
    (∀ update_type : Int,
      (update_Hamiltonian_variables C prms dyn_var ham py_funct model_params
          update_type).failure =
        if update_type = 0 ∧ ¬ (prms.entanglement_opt = 0 ∨ prms.entanglement_opt = 1 ∨
            prms.entanglement_opt = 2 ∨ prms.entanglement_opt = 22) then
          some (0, entanglement_error prms.entanglement_opt)
        else none) ∧
    (∃ stores : List (Call Py),
      (update_Hamiltonian_variables C prms dyn_var ham py_funct model_params 1).run.calls =
        stores ++ spec_hvib_ops prms ∧
      stores.map Call.stored_on = (List.range ham.children.length).map some ∧
      stores = ham.children.enum.map (fun tc => Call.set_nac_adi_by_val tc.1
        (nac_of_overlap C prms (MATRIX.zero ham.nadi ham.nadi) tc.2.time_overlap_adi
          (CMATRIX.zero ham.nadi ham.nadi)))) := by
  refine ⟨fun update_type => update_failure C prms dyn_var ham py_funct model_params
    update_type, spec_overlap_ops C prms ham, ?_, spec_overlap_ops_stored_on C prms ham, ?_⟩
  · rw [update_type1_eq, Outcome.run, phase_B_eq, replay_calls]
    simp [spec_coupling_ops, hm]
  · unfold spec_overlap_ops
    apply List.map_congr_left
    intro tc _
    rw [nac_of_overlap_eq C prms ham.nadi _ _ (fun _ _ => rfl)]

/-- Witness for C5 (amended): the direct selector at `dt = 0` on one trajectory. -/
theorem zero_dt_raises_no_error_witness :
    (∀ update_type : Int,
      (update_Hamiltonian_variables countingCollab (directPolicy 0) sampleVars overlapHam
          () () update_type).failure =
        if update_type = 0 ∧ ¬ ((directPolicy 0).entanglement_opt = 0 ∨
            (directPolicy 0).entanglement_opt = 1 ∨ (directPolicy 0).entanglement_opt = 2 ∨
            (directPolicy 0).entanglement_opt = 22) then
          some (0, entanglement_error (directPolicy 0).entanglement_opt)
        else none) ∧
    (∃ stores : List (Call Unit),
      (update_Hamiltonian_variables countingCollab (directPolicy 0) sampleVars overlapHam
          () () 1).run.calls = stores ++ spec_hvib_ops (directPolicy 0) ∧
      stores.map Call.stored_on = (List.range overlapHam.children.length).map some ∧
      stores = overlapHam.children.enum.map (fun tc => Call.set_nac_adi_by_val tc.1
        (nac_of_overlap countingCollab (directPolicy 0)
          (MATRIX.zero overlapHam.nadi overlapHam.nadi) tc.2.time_overlap_adi
          (CMATRIX.zero overlapHam.nadi overlapHam.nadi)))) :=
  zero_dt_raises_no_error countingCollab (directPolicy 0) sampleVars overlapHam () ()
    rfl rfl

/-- C6: with `nac_algo = 0` the matrix the loop body computes from a real overlap `st`
(one whose imaginary entries are all zero) is antisymmetric, `NAC[i][j] = -NAC[j][i]`
in the real and in the imaginary part, and so its diagonal is zero; this holds for every
`dt`. -/
theorem direct_nac_antisymmetric {Py X : Type} (C : Collaborators Py X)
    (prms : dyn_control_params) (nac_im : MATRIX) (st nac : CMATRIX) (i j : Int)
    (halgo : prms.nac_algo = 0) (hreal : ∀ a b : Int, st.im a b = 0) :
    (nac_of_overlap C prms nac_im st nac).re i j =
      - (nac_of_overlap C prms nac_im st nac).re j i ∧
    (nac_of_overlap C prms nac_im st nac).im i j =
      - (nac_of_overlap C prms nac_im st nac).im j i ∧
    (nac_of_overlap C prms nac_im st nac).re i i = 0 ∧
    (nac_of_overlap C prms nac_im st nac).im i i = 0 := by
  have h : nac_of_overlap C prms nac_im st nac = nac_direct prms.dt st := by
    simp [nac_of_overlap, halgo]
  rw [h]
  simp only [nac_direct_re, nac_direct_im, hreal]
  refine ⟨by ring, by ring, by ring, by ring⟩

/-- Witness for C6: the overlap `[[0, 1], [0, 0]]` with `dt = 2`, at the entry (0, 1). -/
theorem direct_nac_antisymmetric_witness :
    (nac_of_overlap countingCollab (directPolicy 2) (MATRIX.zero 2 2) sampleOverlap
        (CMATRIX.zero 2 2)).re 0 1 =
      - (nac_of_overlap countingCollab (directPolicy 2) (MATRIX.zero 2 2) sampleOverlap
        (CMATRIX.zero 2 2)).re 1 0 ∧
    (nac_of_overlap countingCollab (directPolicy 2) (MATRIX.zero 2 2) sampleOverlap
        (CMATRIX.zero 2 2)).im 0 1 =
      - (nac_of_overlap countingCollab (directPolicy 2) (MATRIX.zero 2 2) sampleOverlap
        (CMATRIX.zero 2 2)).im 1 0 ∧
    (nac_of_overlap countingCollab (directPolicy 2) (MATRIX.zero 2 2) sampleOverlap
        (CMATRIX.zero 2 2)).re 0 0 = 0 ∧
    (nac_of_overlap countingCollab (directPolicy 2) (MATRIX.zero 2 2) sampleOverlap
        (CMATRIX.zero 2 2)).im 0 0 = 0 :=
  direct_nac_antisymmetric countingCollab (directPolicy 2) (MATRIX.zero 2 2) sampleOverlap
    (CMATRIX.zero 2 2) 0 1 rfl (fun _ _ => rfl)

/-- C7, counterexample: with the three update methods set to skip but
`ham_transform_method = 1`, a call with `update_type = 0` runs the internal
diagonalization, and after two calls the collaborator's state is not the one before. -/
theorem all_skip_still_diagonalizes :
    (update_Hamiltonian_variables countingCollab transformOnlyPolicy sampleVars emptyHam
        () () 0).run.calls = [Call.compute_adiabatic_internal 1 1] ∧
    (update_twice countingCollab transformOnlyPolicy sampleVars emptyHam
        () () 0).run.ham.data = 2 ∧
    (update_twice countingCollab transformOnlyPolicy sampleVars emptyHam
        () () 0).run.ham ≠ emptyHam := by
  refine ⟨rfl, rfl, ?_⟩
  intro h
  have h2 := congrArg nHamiltonian.data h
  revert h2
  decide

/-- C7, amended: with `ham_update_method`, `nac_update_method` and `hvib_update_method`
all 0, a call makes no collaborator call and two calls in succession return the state
from before the calls, for `update_type = 1` whatever the remaining fields, and for
`update_type = 0` when also `ham_transform_method` is not 1 and `entanglement_opt` is 0. -/
theorem all_skip_idempotent {Py X : Type} (C : Collaborators Py X)
    (prms : dyn_control_params) (dyn_var : dyn_variables) (ham : nHamiltonian X)
    (py_funct model_params : Py) (update_type : Int)
    (hh : prms.ham_update_method = 0) (hn : prms.nac_update_method = 0)
    (hv : prms.hvib_update_method = 0)
    (hut : update_type = 1 ∨
      (update_type = 0 ∧ prms.ham_transform_method ≠ 1 ∧ prms.entanglement_opt = 0)) :
    update_Hamiltonian_variables C prms dyn_var ham py_funct model_params update_type =
      Outcome.returned { dyn_var := dyn_var, ham := ham, calls := [] } ∧
    update_twice C prms dyn_var ham py_funct model_params update_type =
      Outcome.returned { dyn_var := dyn_var, ham := ham, calls := [] } := by
  have hB : ∀ r : Run Py X, phase_B C prms r = r := by
    intro r
    rw [phase_B_eq]
    simp [spec_coupling_ops, spec_hvib_ops, hn, hv, replay_nil]
  have h1 : update_Hamiltonian_variables C prms dyn_var ham py_funct model_params
      update_type = Outcome.returned { dyn_var := dyn_var, ham := ham, calls := [] } := by
    rcases hut with h | ⟨h, ht, he⟩
    · subst h
      rw [update_type1_eq, hB]
    · subst h
      rw [update_type0_eq, if_pos (Or.inl he), hB, phase_A,
        entanglement_step_eq C prms _ (Or.inl he), transform_step_eq, energy_step_eq]
      simp [spec_energy_ops, spec_transform_ops, spec_entanglement_ops, hh, ht, he,
        replay_nil, Outcome.run]
  refine ⟨h1, ?_⟩
  unfold update_twice
  rw [h1]
  exact h1

/-- Witness for C7 (amended): the skip policy with `update_type = 0`. -/
theorem all_skip_idempotent_witness :
    update_Hamiltonian_variables countingCollab skipPolicy sampleVars emptyHam () () 0 =
      Outcome.returned { dyn_var := sampleVars, ham := emptyHam, calls := [] } ∧
    update_twice countingCollab skipPolicy sampleVars emptyHam () () 0 =
      Outcome.returned { dyn_var := sampleVars, ham := emptyHam, calls := [] } :=
  all_skip_idempotent countingCollab skipPolicy sampleVars emptyHam () () 0 rfl rfl rfl
    (Or.inr ⟨rfl, by decide, rfl⟩)

theorem spec_coupling_ops_isPhaseB {Py X : Type} (C : Collaborators Py X)
    (prms : dyn_control_params) (dyn_var : dyn_variables) (ham : nHamiltonian X)
    (c : Call Py) (hc : c ∈ spec_coupling_ops C prms dyn_var ham) : c.isPhaseB = true := by
  unfold spec_coupling_ops at hc
  by_cases h1 : prms.nac_update_method = 1
  · rw [if_pos h1] at hc
    simp only [List.mem_cons, List.mem_singleton, List.mem_nil_iff, or_false] at hc
    rcases hc with rfl | rfl <;> rfl
  · rw [if_neg h1] at hc
    by_cases h2 : prms.nac_update_method = 2
    · rw [if_pos h2] at hc
      obtain ⟨tc, _, rfl⟩ := List.mem_map.1 hc
      rfl
    · rw [if_neg h2] at hc
      exact absurd hc (List.not_mem_nil c)

theorem spec_hvib_ops_isPhaseB {Py : Type} (prms : dyn_control_params)
    (c : Call Py) (hc : c ∈ (spec_hvib_ops prms : List (Call Py))) : c.isPhaseB = true := by
  unfold spec_hvib_ops at hc
  by_cases h1 : prms.hvib_update_method = 1
  · rw [if_pos h1] at hc
    simp only [List.mem_cons, List.mem_singleton, List.mem_nil_iff, or_false] at hc
    rcases hc with rfl | rfl <;> rfl
  · rw [if_neg h1] at hc
    exact absurd hc (List.not_mem_nil c)

/-- C8: when `update_type` is not 0, the call returns (the validity check of
`entanglement_opt` is not made), its result is the same for every value of
`ham_update_method`, `ham_transform_method` and `entanglement_opt`, every collaborator
call it makes belongs to the couplings and vibronic-Hamiltonian block, and unless
`update_type` is 1 it makes no call at all and returns the Hamiltonian unchanged. -/
theorem phases_gated_by_update_type {Py X : Type} (C : Collaborators Py X)
    (prms : dyn_control_params) (dyn_var : dyn_variables) (ham : nHamiltonian X)
    (py_funct model_params : Py) (update_type : Int) (hut : update_type ≠ 0) :
    (∀ a b c : Int,
      update_Hamiltonian_variables C
        { prms with ham_update_method := a, ham_transform_method := b,
                    entanglement_opt := c }
        dyn_var ham py_funct model_params update_type =
      update_Hamiltonian_variables C prms dyn_var ham py_funct model_params update_type) ∧
    (∃ r, update_Hamiltonian_variables C prms dyn_var ham py_funct model_params update_type =
        Outcome.returned r ∧
      r.dyn_var = dyn_var ∧
      (∀ c ∈ r.calls, c.isPhaseB = true) ∧
      (update_type = 1 ∨ (r.ham = ham ∧ r.calls = []))) := by
  by_cases h1 : update_type = 1
  · subst h1
    refine ⟨fun a b c => ?_, _, update_type1_eq C prms dyn_var ham py_funct model_params,
      ?_, ?_, Or.inl rfl⟩
    · rw [update_type1_eq, update_type1_eq]
      rfl
    · rw [phase_B_eq, replay_dyn_var]
    · intro c hc
      rw [phase_B_eq, replay_calls, List.nil_append, List.mem_append] at hc
      rcases hc with hc | hc
      · exact spec_coupling_ops_isPhaseB C prms _ _ c hc
      · exact spec_hvib_ops_isPhaseB prms c hc
  · refine ⟨fun a b c => ?_, _,
      update_type_other_eq C prms dyn_var ham py_funct model_params update_type hut h1,
      rfl, ?_, Or.inr ⟨rfl, rfl⟩⟩
    · rw [update_type_other_eq _ _ _ _ _ _ _ hut h1,
        update_type_other_eq _ _ _ _ _ _ _ hut h1]
    · intro c hc
      exact absurd hc (List.not_mem_nil c)

/-- Witness for C8: `update_type = 5` with the policy of the scenario. -/
theorem phases_gated_by_update_type_witness :
    (∀ a b c : Int,
      update_Hamiltonian_variables countingCollab
        { scenarioPolicy with ham_update_method := a, ham_transform_method := b,
                              entanglement_opt := c }
        sampleVars emptyHam () () 5 =
      update_Hamiltonian_variables countingCollab scenarioPolicy sampleVars emptyHam
        () () 5) ∧
    (∃ r, update_Hamiltonian_variables countingCollab scenarioPolicy sampleVars emptyHam
        () () 5 = Outcome.returned r ∧
      r.dyn_var = sampleVars ∧
      (∀ c ∈ r.calls, c.isPhaseB = true) ∧
      ((5 : Int) = 1 ∨ (r.ham = emptyHam ∧ r.calls = []))) :=
  phases_gated_by_update_type countingCollab scenarioPolicy sampleVars emptyHam () () 5
    (by decide)

/-- C9, counterexample: the code 7 of `ham_update_method`, outside its defined set, does
not make the call fail; the call returns, having done nothing, as for the skip code 0. -/
theorem undefined_update_method_is_skipped :
    (update_Hamiltonian_variables countingCollab undefinedUpdatePolicy sampleVars emptyHam
        () () 0).failure = none ∧
    update_Hamiltonian_variables countingCollab undefinedUpdatePolicy sampleVars emptyHam
        () () 0 =
      Outcome.returned { dyn_var := sampleVars, ham := emptyHam, calls := [] } ∧
    update_Hamiltonian_variables countingCollab undefinedUpdatePolicy sampleVars emptyHam
        () () 0 =
      update_Hamiltonian_variables countingCollab skipPolicy sampleVars emptyHam () () 0 :=
  ⟨rfl, rfl, rfl⟩

/-- C9, amended: a code `v` outside the defined set of `ham_transform_method` or of
`hvib_update_method` (so `v` is not 1), or outside that of `ham_update_method` or of
`nac_update_method` (so `v` is neither 1 nor 2), raises no error: the call behaves as
with the code 0 in that field.  Whatever the policy, `nac_algo` included, the call ends
in `exit` only for `update_type = 0` with an unknown `entanglement_opt`. -/
theorem undefined_codes_are_skipped {Py X : Type} (C : Collaborators Py X)
    (prms : dyn_control_params) (dyn_var : dyn_variables) (ham : nHamiltonian X)
    (py_funct model_params : Py) (update_type : Int) (v : Int) (hv : v ≠ 1) :
    update_Hamiltonian_variables C { prms with ham_transform_method := v }
        dyn_var ham py_funct model_params update_type =
      update_Hamiltonian_variables C { prms with ham_transform_method := 0 }
        dyn_var ham py_funct model_params update_type ∧
    update_Hamiltonian_variables C { prms with hvib_update_method := v }
        dyn_var ham py_funct model_params update_type =
      update_Hamiltonian_variables C { prms with hvib_update_method := 0 }
        dyn_var ham py_funct model_params update_type ∧
    (v = 2 ∨
      update_Hamiltonian_variables C { prms with ham_update_method := v }
          dyn_var ham py_funct model_params update_type =
        update_Hamiltonian_variables C { prms with ham_update_method := 0 }
          dyn_var ham py_funct model_params update_type) ∧
    (v = 2 ∨
      update_Hamiltonian_variables C { prms with nac_update_method := v }
          dyn_var ham py_funct model_params update_type =
        update_Hamiltonian_variables C { prms with nac_update_method := 0 }
          dyn_var ham py_funct model_params update_type) ∧
    (update_Hamiltonian_variables C prms dyn_var ham py_funct model_params
        update_type).failure =
      if update_type = 0 ∧ ¬ (prms.entanglement_opt = 0 ∨ prms.entanglement_opt = 1 ∨
          prms.entanglement_opt = 2 ∨ prms.entanglement_opt = 22) then
        some (0, entanglement_error prms.entanglement_opt)
      else none := by
  refine ⟨?_, ?_, ?_, ?_, update_failure C prms dyn_var ham py_funct model_params update_type⟩
  · have h : ∀ r : Run Py X, transform_step C { prms with ham_transform_method := v } r =
        transform_step C { prms with ham_transform_method := 0 } r := by
      intro r
      rw [transform_step_eq, transform_step_eq]
      simp [spec_transform_ops, hv]
    simp only [update_Hamiltonian_variables, phase_A, h]
    rfl
  · have h : ∀ r : Run Py X, hvib_step C { prms with hvib_update_method := v } r =
        hvib_step C { prms with hvib_update_method := 0 } r := by
      intro r
      rw [hvib_step_eq, hvib_step_eq]
      simp [spec_hvib_ops, hv]
    simp only [update_Hamiltonian_variables, phase_B, h]
    rfl
  · by_cases h2 : v = 2
    · exact Or.inl h2
    · right
      have h : ∀ r : Run Py X,
          energy_step C { prms with ham_update_method := v } py_funct model_params r =
          energy_step C { prms with ham_update_method := 0 } py_funct model_params r := by
        intro r
        rw [energy_step_eq, energy_step_eq]
        simp [spec_energy_ops, hv, h2]
      simp only [update_Hamiltonian_variables, phase_A, h]
      rfl
  · by_cases h2 : v = 2
    · exact Or.inl h2
    · right
      have h : ∀ r : Run Py X, coupling_step C { prms with nac_update_method := v } r =
          coupling_step C { prms with nac_update_method := 0 } r := by
        intro r
        rw [coupling_step_eq, coupling_step_eq]
        simp [spec_coupling_ops, hv, h2]
      simp only [update_Hamiltonian_variables, phase_B, h]
      rfl

/-- Witness for C9 (amended): the code 7 on the policy of the scenario. -/
theorem undefined_codes_are_skipped_witness :
    update_Hamiltonian_variables countingCollab
        { scenarioPolicy with ham_transform_method := 7 } sampleVars emptyHam () () 0 =
      update_Hamiltonian_variables countingCollab
        { scenarioPolicy with ham_transform_method := 0 } sampleVars emptyHam () () 0 ∧
    update_Hamiltonian_variables countingCollab
        { scenarioPolicy with hvib_update_method := 7 } sampleVars emptyHam () () 0 =
      update_Hamiltonian_variables countingCollab
        { scenarioPolicy with hvib_update_method := 0 } sampleVars emptyHam () () 0 ∧
    ((7 : Int) = 2 ∨
      update_Hamiltonian_variables countingCollab
          { scenarioPolicy with ham_update_method := 7 } sampleVars emptyHam () () 0 =
        update_Hamiltonian_variables countingCollab
          { scenarioPolicy with ham_update_method := 0 } sampleVars emptyHam () () 0) ∧
    ((7 : Int) = 2 ∨
      update_Hamiltonian_variables countingCollab
          { scenarioPolicy with nac_update_method := 7 } sampleVars emptyHam () () 0 =
        update_Hamiltonian_variables countingCollab
          { scenarioPolicy with nac_update_method := 0 } sampleVars emptyHam () () 0) ∧
    (update_Hamiltonian_variables countingCollab scenarioPolicy sampleVars emptyHam
        () () 0).failure =
      if (0 : Int) = 0 ∧ ¬ (scenarioPolicy.entanglement_opt = 0 ∨
          scenarioPolicy.entanglement_opt = 1 ∨ scenarioPolicy.entanglement_opt = 2 ∨
          scenarioPolicy.entanglement_opt = 22) then
        some (0, entanglement_error scenarioPolicy.entanglement_opt)
      else none :=
  undefined_codes_are_skipped countingCollab scenarioPolicy sampleVars emptyHam () () 0 7
    (by decide)

/-- C10: a call with `update_type = 0` and a valid `entanglement_opt` returns, and the
collaborator calls it has made are, in this order, those of the energy step, of the
transform step, of the entanglement step, of the coupling step (on the Hamiltonian as
the first three steps left it) and of the vibronic-Hamiltonian step; the Hamiltonian
returned is the result of these calls made one after the other. -/
theorem stages_run_in_fixed_order {Py X : Type} (C : Collaborators Py X)
    (prms : dyn_control_params) (dyn_var : dyn_variables) (ham : nHamiltonian X)
    (py_funct model_params : Py)
    (he : prms.entanglement_opt = 0 ∨ prms.entanglement_opt = 1 ∨
      prms.entanglement_opt = 2 ∨ prms.entanglement_opt = 22) :
    ∃ r, update_Hamiltonian_variables C prms dyn_var ham py_funct model_params 0 =
        Outcome.returned r ∧
      r.dyn_var = dyn_var ∧
      r.calls =
        spec_energy_ops prms py_funct model_params dyn_var.q ++
        spec_transform_ops prms ++
        spec_entanglement_ops prms dyn_var ++
        spec_coupling_ops C prms dyn_var
          ((spec_energy_ops prms py_funct model_params dyn_var.q ++
            spec_transform_ops prms ++
            spec_entanglement_ops prms dyn_var).foldl (fun hm c => C.perform c hm) ham) ++
        spec_hvib_ops prms ∧
      r.ham = r.calls.foldl (fun hm c => C.perform c hm) ham := by
  have hA : (phase_A C prms py_funct model_params
      { dyn_var := dyn_var, ham := ham, calls := [] }).run =
      Run.replay C (spec_energy_ops prms py_funct model_params dyn_var.q ++
        spec_transform_ops prms ++ spec_entanglement_ops prms dyn_var)
        { dyn_var := dyn_var, ham := ham, calls := [] } := by
    rw [phase_A, entanglement_step_eq C prms _ he, transform_step_eq, energy_step_eq,
      Outcome.run, replay_dyn_var, replay_dyn_var, replay_append, replay_append]
  have hAll : phase_B C prms (phase_A C prms py_funct model_params
      { dyn_var := dyn_var, ham := ham, calls := [] }).run =
      Run.replay C (spec_energy_ops prms py_funct model_params dyn_var.q ++
        spec_transform_ops prms ++ spec_entanglement_ops prms dyn_var ++
        spec_coupling_ops C prms dyn_var
          ((spec_energy_ops prms py_funct model_params dyn_var.q ++
            spec_transform_ops prms ++
            spec_entanglement_ops prms dyn_var).foldl (fun hm c => C.perform c hm) ham) ++
        spec_hvib_ops prms)
        { dyn_var := dyn_var, ham := ham, calls := [] } := by
    rw [phase_B_eq, hA, replay_dyn_var, replay_ham, ← replay_append]
    simp only [List.append_assoc]
  have hcalls := replay_calls C (spec_energy_ops prms py_funct model_params dyn_var.q ++
        spec_transform_ops prms ++ spec_entanglement_ops prms dyn_var ++
        spec_coupling_ops C prms dyn_var
          ((spec_energy_ops prms py_funct model_params dyn_var.q ++
            spec_transform_ops prms ++
            spec_entanglement_ops prms dyn_var).foldl (fun hm c => C.perform c hm) ham) ++
        spec_hvib_ops prms) { dyn_var := dyn_var, ham := ham, calls := [] }
  rw [List.nil_append] at hcalls
  refine ⟨phase_B C prms (phase_A C prms py_funct model_params
    { dyn_var := dyn_var, ham := ham, calls := [] }).run, ?_, ?_, ?_, ?_⟩
  · rw [update_type0_eq, if_pos he]
  · rw [hAll, replay_dyn_var]
  · rw [hAll, hcalls]
  · rw [hAll, hcalls, replay_ham]

/-- Witness for C10: diabatic recomputation, internal diagonalization and no
entanglement correction give `compute_diabatic` from `q`, then the internal
diagonalization, then the calls of the coupling and vibronic-Hamiltonian steps, with no
entanglement call. -/
theorem stages_run_in_fixed_order_witness :
    ∃ r, update_Hamiltonian_variables countingCollab scenarioPolicy sampleVars emptyHam
        () () 0 = Outcome.returned r ∧
      r.dyn_var = sampleVars ∧
      r.calls =
        [Call.compute_diabatic () sampleVars.q () 1] ++
        [Call.compute_adiabatic_internal 1 1] ++
        [] ++
        [Call.compute_nac_dia (p_quantum_dof scenarioPolicy sampleVars) sampleVars.iM 0 1,
         Call.compute_nac_adi (p_quantum_dof scenarioPolicy sampleVars) sampleVars.iM 0 1] ++
        [Call.compute_hvib_dia 1, Call.compute_hvib_adi 1] ∧
      r.ham = r.calls.foldl (fun hm c => countingCollab.perform c hm) emptyHam :=
  stages_run_in_fixed_order countingCollab scenarioPolicy sampleVars emptyHam () ()
    (Or.inl rfl)

/-- The calls of a call with `update_type = 0`, up to its return or its `exit`. -/
theorem update_type0_run_calls {Py X : Type} (C : Collaborators Py X)
    (prms : dyn_control_params) (dyn_var : dyn_variables) (ham : nHamiltonian X)
    (py_funct model_params : Py) :
    (update_Hamiltonian_variables C prms dyn_var ham py_funct model_params 0).run.calls =
      spec_energy_ops prms py_funct model_params dyn_var.q ++ spec_transform_ops prms ++
        (if prms.entanglement_opt = 0 ∨ prms.entanglement_opt = 1 ∨
            prms.entanglement_opt = 2 ∨ prms.entanglement_opt = 22 then
          spec_entanglement_ops prms dyn_var ++
            (spec_coupling_ops C prms dyn_var
              ((spec_energy_ops prms py_funct model_params dyn_var.q ++
                spec_transform_ops prms ++
                spec_entanglement_ops prms dyn_var).foldl (fun hm c => C.perform c hm) ham) ++
              spec_hvib_ops prms)
        else []) := by
  rw [update_type0_eq]
  by_cases he : prms.entanglement_opt = 0 ∨ prms.entanglement_opt = 1 ∨
      prms.entanglement_opt = 2 ∨ prms.entanglement_opt = 22
  · rw [if_pos he, if_pos he, Outcome.run, phase_B_eq, phase_A,
      entanglement_step_eq C prms _ he, transform_step_eq, energy_step_eq, Outcome.run,
      replay_dyn_var, replay_dyn_var, ← replay_append, ← replay_append, ← replay_append,
      replay_calls, replay_dyn_var, replay_ham]
    simp only [List.nil_append, List.append_assoc, replay_ham, List.foldl_append]
  · rw [if_neg he, if_neg he, Outcome.run, transform_step_eq, energy_step_eq,
      ← replay_append, replay_calls]
    simp only [List.nil_append, List.append_nil]

theorem isPhaseB_not_eval {Py : Type} (c : Call Py) (hc : c.isPhaseB = true) :
    c.isDiabaticEval = false ∧ c.isAdiabaticEval = false ∧ c.isDiagonalization = false := by
  cases c <;>
    simp [Call.isPhaseB, Call.isDiabaticEval, Call.isAdiabaticEval,
      Call.isDiagonalization] at hc ⊢

theorem spec_entanglement_ops_not_eval {Py : Type} (prms : dyn_control_params)
    (dyn_var : dyn_variables) (c : Call Py)
    (hc : c ∈ (spec_entanglement_ops prms dyn_var : List (Call Py))) :
    c.isDiabaticEval = false ∧ c.isAdiabaticEval = false ∧ c.isDiagonalization = false := by
  unfold spec_entanglement_ops at hc
  split_ifs at hc
  · rw [List.mem_singleton.1 hc]; exact ⟨rfl, rfl, rfl⟩
  · rw [List.mem_singleton.1 hc]; exact ⟨rfl, rfl, rfl⟩
  · rw [List.mem_singleton.1 hc]; exact ⟨rfl, rfl, rfl⟩
  · exact absurd hc (List.not_mem_nil c)

/-- Of the calls after the energy and the transform step none is a model evaluation or
an internal diagonalization. -/
theorem tail_ops_not_eval {Py X : Type} (C : Collaborators Py X)
    (prms : dyn_control_params) (dyn_var : dyn_variables) (hamA : nHamiltonian X)
    (c : Call Py)
    (hc : c ∈ (if prms.entanglement_opt = 0 ∨ prms.entanglement_opt = 1 ∨
            prms.entanglement_opt = 2 ∨ prms.entanglement_opt = 22 then
          spec_entanglement_ops prms dyn_var ++
            (spec_coupling_ops C prms dyn_var hamA ++ spec_hvib_ops prms)
        else [])) :
    c.isDiabaticEval = false ∧ c.isAdiabaticEval = false ∧ c.isDiagonalization = false := by
  split_ifs at hc
  · rcases List.mem_append.1 hc with h | h
    · exact spec_entanglement_ops_not_eval prms dyn_var c h
    · rcases List.mem_append.1 h with h | h
      · exact isPhaseB_not_eval c (spec_coupling_ops_isPhaseB C prms dyn_var hamA c h)
      · exact isPhaseB_not_eval c (spec_hvib_ops_isPhaseB prms c h)
  · exact absurd hc (List.not_mem_nil c)

/-- A test of calls that rejects everything but model evaluations and internal
diagonalizations sees, in a call with `update_type = 0`, only the energy and transform
steps. -/
theorem update_type0_filter {Py X : Type} (C : Collaborators Py X)
    (prms : dyn_control_params) (dyn_var : dyn_variables) (ham : nHamiltonian X)
    (py_funct model_params : Py) (p : Call Py → Bool)
    (hp : ∀ c : Call Py, c.isDiabaticEval = false ∧ c.isAdiabaticEval = false ∧
      c.isDiagonalization = false → p c = false) :
    (update_Hamiltonian_variables C prms dyn_var ham py_funct model_params
        0).run.calls.filter p =
      (spec_energy_ops prms py_funct model_params dyn_var.q).filter p ++
        (spec_transform_ops prms : List (Call Py)).filter p := by
  rw [update_type0_run_calls, List.filter_append, List.filter_append]
  have hnil : ∀ l : List (Call Py),
      (∀ c ∈ l, c.isDiabaticEval = false ∧ c.isAdiabaticEval = false ∧
        c.isDiagonalization = false) → l.filter p = [] := by
    intro l hl
    apply List.filter_eq_nil_iff.2
    intro c hc
    rw [hp c (hl c hc)]
    decide
  rw [hnil _ (fun c hc => tail_ops_not_eval C prms dyn_var _ c hc), List.append_nil]

/-- C11, counterexample: with `ham_update_method = 0` a call with `update_type = 0`
recomputes neither the diabatic nor the adiabatic Hamiltonian. -/
theorem skip_code_recomputes_neither :
    (update_Hamiltonian_variables countingCollab skipPolicy sampleVars emptyHam
        () () 0).run.calls.filter (fun c => c.isDiabaticEval || c.isAdiabaticEval) = [] ∧
    (update_Hamiltonian_variables countingCollab skipPolicy sampleVars emptyHam
        () () 0).run.ham = emptyHam :=
  ⟨rfl, rfl⟩

/-- C11, amended: in a call with `update_type = 0` the diabatic Hamiltonian is recomputed
from `q` once when `ham_update_method = 1` and not at all otherwise, and the adiabatic
Hamiltonian is recomputed from `q` once when `ham_update_method = 2` and not at all
otherwise; so at most one of the two is recomputed, and never both. -/
theorem energy_step_recomputes_at_most_one {Py X : Type} (C : Collaborators Py X)
    (prms : dyn_control_params) (dyn_var : dyn_variables) (ham : nHamiltonian X)
    (py_funct model_params : Py) :
    (update_Hamiltonian_variables C prms dyn_var ham py_funct model_params
        0).run.calls.filter Call.isDiabaticEval =
      (if prms.ham_update_method = 1 then
        [Call.compute_diabatic py_funct dyn_var.q model_params 1] else []) ∧
    (update_Hamiltonian_variables C prms dyn_var ham py_funct model_params
        0).run.calls.filter Call.isAdiabaticEval =
      (if prms.ham_update_method = 2 then
        [Call.compute_adiabatic py_funct dyn_var.q model_params 1] else []) := by
  have ht1 : (spec_transform_ops prms : List (Call Py)).filter Call.isDiabaticEval = [] := by
    unfold spec_transform_ops; split_ifs <;> rfl
  have ht2 : (spec_transform_ops prms : List (Call Py)).filter Call.isAdiabaticEval = [] := by
    unfold spec_transform_ops; split_ifs <;> rfl
  constructor
  · rw [update_type0_filter C prms dyn_var ham py_funct model_params Call.isDiabaticEval
      (fun c hc => hc.1), ht1, List.append_nil]
    unfold spec_energy_ops
    by_cases h1 : prms.ham_update_method = 1
    · rw [if_pos h1, if_pos h1]; rfl
    · rw [if_neg h1, if_neg h1]
      split_ifs <;> rfl
  · rw [update_type0_filter C prms dyn_var ham py_funct model_params Call.isAdiabaticEval
      (fun c hc => hc.2.1), ht2, List.append_nil]
    unfold spec_energy_ops
    by_cases h1 : prms.ham_update_method = 1
    · have h2 : prms.ham_update_method ≠ 2 := by rw [h1]; decide
      rw [if_pos h1, if_neg h2]; rfl
    · rw [if_neg h1]
      split_ifs <;> rfl

/-- A code other than 1 for `ham_transform_method` gives the call of the code 0. -/
theorem transform_code_not_one {Py X : Type} (C : Collaborators Py X)
    (prms : dyn_control_params) (dyn_var : dyn_variables) (ham : nHamiltonian X)
    (py_funct model_params : Py) (update_type : Int) (v : Int) (hv : v ≠ 1) :
    update_Hamiltonian_variables C { prms with ham_transform_method := v }
        dyn_var ham py_funct model_params update_type =
      update_Hamiltonian_variables C { prms with ham_transform_method := 0 }
        dyn_var ham py_funct model_params update_type := by
  have h : ∀ r : Run Py X, transform_step C { prms with ham_transform_method := v } r =
      transform_step C { prms with ham_transform_method := 0 } r := by
    intro r
    rw [transform_step_eq, transform_step_eq]
    simp [spec_transform_ops, hv]
  simp only [update_Hamiltonian_variables, phase_A, h]
  rfl

/-- The internal diagonalizations among the calls of the pipeline. -/
theorem update_diagonalizations {Py X : Type} (C : Collaborators Py X)
    (prms : dyn_control_params) (dyn_var : dyn_variables) (ham : nHamiltonian X)
    (py_funct model_params : Py) (update_type : Int) :
    (update_Hamiltonian_variables C prms dyn_var ham py_funct model_params
        update_type).run.calls.filter Call.isDiagonalization =
      if update_type = 0 ∧ prms.ham_transform_method = 1 then
        [Call.compute_adiabatic_internal 1 1]
      else [] := by
  by_cases h0 : update_type = 0
  · subst h0
    rw [update_type0_filter C prms dyn_var ham py_funct model_params Call.isDiagonalization
      (fun c hc => hc.2.2)]
    have hE : (spec_energy_ops prms py_funct model_params dyn_var.q).filter
        Call.isDiagonalization = [] := by
      unfold spec_energy_ops; split_ifs <;> rfl
    rw [hE, List.nil_append]
    unfold spec_transform_ops
    by_cases h1 : prms.ham_transform_method = 1
    · rw [if_pos h1, if_pos ⟨rfl, h1⟩]; rfl
    · rw [if_neg h1, if_neg (fun h => h1 h.2)]; rfl
  · rw [if_neg (fun h => h0 h.1)]
    apply List.filter_eq_nil_iff.2
    intro c hc
    have hB : c.isPhaseB = true := by
      by_cases h1 : update_type = 1
      · subst h1
        rw [update_type1_eq, Outcome.run, phase_B_eq, replay_calls, List.nil_append,
          List.mem_append] at hc
        rcases hc with hc | hc
        · exact spec_coupling_ops_isPhaseB C prms _ _ c hc
        · exact spec_hvib_ops_isPhaseB prms c hc
      · rw [update_type_other_eq C prms dyn_var ham py_funct model_params update_type h0 h1]
          at hc
        exact absurd hc (List.not_mem_nil c)
    rw [(isPhaseB_not_eval c hB).2.2]
    decide

/-- C12: with `ham_transform_method` 2, 3 or 4 the call, whatever its other inputs, is
the call with `ham_transform_method = 0` (same outcome, same calls, same Hamiltonian),
and none of its calls is the internal diagonalization. -/
theorem reserved_transform_codes_are_noops {Py X : Type} (C : Collaborators Py X)
    (prms : dyn_control_params) (dyn_var : dyn_variables) (ham : nHamiltonian X)
    (py_funct model_params : Py) (update_type : Int) (v : Int)
    (hv : v = 2 ∨ v = 3 ∨ v = 4) :
    update_Hamiltonian_variables C { prms with ham_transform_method := v }
        dyn_var ham py_funct model_params update_type =
      update_Hamiltonian_variables C { prms with ham_transform_method := 0 }
        dyn_var ham py_funct model_params update_type ∧
    (update_Hamiltonian_variables C { prms with ham_transform_method := v }
        dyn_var ham py_funct model_params update_type).run.calls.filter
          Call.isDiagonalization = [] := by
  have hv1 : v ≠ 1 := by rcases hv with h | h | h <;> rw [h] <;> decide
  refine ⟨transform_code_not_one C prms dyn_var ham py_funct model_params update_type v hv1,
    ?_⟩
  rw [update_diagonalizations, if_neg (fun h => hv1 h.2)]

/-- Witness for C12: the code 3 on the policy of the scenario, with `update_type = 0`. -/
theorem reserved_transform_codes_are_noops_witness :
    update_Hamiltonian_variables countingCollab
        { scenarioPolicy with ham_transform_method := 3 } sampleVars emptyHam () () 0 =
      update_Hamiltonian_variables countingCollab
        { scenarioPolicy with ham_transform_method := 0 } sampleVars emptyHam () () 0 ∧
    (update_Hamiltonian_variables countingCollab
        { scenarioPolicy with ham_transform_method := 3 } sampleVars emptyHam
        () () 0).run.calls.filter Call.isDiagonalization = [] :=
  reserved_transform_codes_are_noops countingCollab scenarioPolicy sampleVars emptyHam () ()
    0 3 (Or.inr (Or.inl rfl))

theorem modify_append_length {α : Type} (f : α → α) (P : List α) (a : α) (l : List α) :
    (P ++ a :: l).modify f P.length = P ++ f a :: l := by
  induction P with
  | nil => simp [List.modify]
  | cons b P ih => simpa [List.modify] using ih

/-- Stores made for the trajectories of `l` in turn, each with a coupling computed by `F`
from the trajectory's own time overlap, rewrite the couplings of `l` and nothing else. -/
theorem stores_foldl {Py X : Type} (C : Collaborators Py X) (F : CMATRIX → CMATRIX)
    (l P : List (Node X)) (ham : nHamiltonian X) (hch : ham.children = P ++ l) :
    ((l.enumFrom P.length).map
        (fun tc => (Call.set_nac_adi_by_val tc.1 (F tc.2.time_overlap_adi) : Call Py))).foldl
      (fun hm c => C.perform c hm) ham =
      { ham with children :=
          P ++ l.map (fun nd => nd.set_nac_adi_by_val (F nd.time_overlap_adi)) } := by
  induction l generalizing P ham with
  | nil =>
    cases ham
    simp only [List.enumFrom_nil, List.map_nil, List.foldl_nil]
    simp only at hch
    rw [hch]
  | cons a l ih =>
    rw [List.enumFrom_cons, List.map_cons, List.foldl_cons]
    have hstep : C.perform (Call.set_nac_adi_by_val P.length (F a.time_overlap_adi)) ham =
        { ham with children := (P ++ [a.set_nac_adi_by_val (F a.time_overlap_adi)]) ++ l } := by
      show ham.set_child_nac P.length (F a.time_overlap_adi) = _
      unfold nHamiltonian.set_child_nac
      rw [hch, modify_append_length]
      simp
    have hlen : (P ++ [a.set_nac_adi_by_val (F a.time_overlap_adi)]).length = P.length + 1 := by
      simp
    rw [hstep, ← hlen, ih (P ++ [a.set_nac_adi_by_val (F a.time_overlap_adi)]) _ rfl]
    simp

/-- The Hamiltonian after the loop over the trajectories: every child has its coupling
replaced by the one computed from its own time overlap; nothing else is changed. -/
theorem nac_by_overlap_ham {Py X : Type} (C : Collaborators Py X)
    (prms : dyn_control_params) (r : Run Py X) :
    (nac_by_overlap C prms r).ham =
      { r.ham with children := r.ham.children.map (fun nd =>
          nd.set_nac_adi_by_val (overlap_nac C prms r.ham.nadi nd.time_overlap_adi)) } := by
  rw [nac_by_overlap_eq, replay_ham, spec_overlap_ops]
  have h := @stores_foldl Py X C (overlap_nac C prms r.ham.nadi) r.ham.children []
    r.ham rfl
  simp only [List.length_nil, List.nil_append] at h
  exact h

/-- The coupling step with `nac_update_method = 2`, on the Hamiltonian. -/
theorem coupling_step_overlap_ham {Py X : Type} (C : Collaborators Py X)
    (prms : dyn_control_params) (r : Run Py X) (hm : prms.nac_update_method = 2) :
    (coupling_step C prms r).ham =
      { r.ham with children := r.ham.children.map (fun nd =>
          nd.set_nac_adi_by_val (overlap_nac C prms r.ham.nadi nd.time_overlap_adi)) } := by
  have h : coupling_step C prms r = nac_by_overlap C prms r := by
    simp [coupling_step, hm]
  rw [h, nac_by_overlap_ham]

/-- The calls of a call with `update_type = 1` and `nac_update_method = 2`. -/
theorem update_type1_overlap_calls {Py X : Type} (C : Collaborators Py X)
    (prms : dyn_control_params) (dyn_var : dyn_variables) (ham : nHamiltonian X)
    (py_funct model_params : Py) (hm : prms.nac_update_method = 2) :
    (update_Hamiltonian_variables C prms dyn_var ham py_funct model_params 1).run.calls =
      spec_overlap_ops C prms ham ++ spec_hvib_ops prms := by
  rw [update_type1_eq, Outcome.run, phase_B_eq, replay_calls]
  simp [spec_coupling_ops, hm]

theorem nac_direct_symmetric (dt : ℚ) (st : CMATRIX)
    (hst : ∀ a b : Int, st.im a b = 0 ∧ st.re a b = st.re b a) (i j : Int) :
    (nac_direct dt st).re i j = 0 ∧ (nac_direct dt st).im i j = 0 := by
  rw [nac_direct_re, nac_direct_im, (hst i j).1, (hst j i).1, (hst i j).2]
  constructor <;> ring

/-- C13: with `nac_update_method = 2` and `nac_algo = 0`, when every stored time overlap
is real and symmetric, the coupling step leaves on every trajectory node a coupling all
of whose entries are zero, and every store made by a call with `update_type = 1`
carries such a matrix; this holds for every `dt`. -/
theorem symmetric_overlap_gives_zero_nac {Py X : Type} (C : Collaborators Py X)
    (prms : dyn_control_params) (dyn_var : dyn_variables) (ham : nHamiltonian X)
    (py_funct model_params : Py)
    (hm : prms.nac_update_method = 2) (ha : prms.nac_algo = 0)
    (hsym : ∀ nd ∈ ham.children, ∀ a b : Int,
      nd.time_overlap_adi.im a b = 0 ∧ nd.time_overlap_adi.re a b = nd.time_overlap_adi.re b a) :
    (coupling_step C prms
        ({ dyn_var := dyn_var, ham := ham, calls := [] } : Run Py X)).ham.children.length =
      ham.children.length ∧
    (∀ nd ∈ (coupling_step C prms
        ({ dyn_var := dyn_var, ham := ham, calls := [] } : Run Py X)).ham.children,
      ∀ i j : Int, nd.nac_adi.re i j = 0 ∧ nd.nac_adi.im i j = 0) ∧
    (∀ (traj : Nat) (nac : CMATRIX),
      Call.set_nac_adi_by_val traj nac ∈
        (update_Hamiltonian_variables C prms dyn_var ham py_funct model_params 1).run.calls →
      ∀ i j : Int, nac.re i j = 0 ∧ nac.im i j = 0) := by
  have hnac : ∀ nd ∈ ham.children, ∀ i j : Int,
      (overlap_nac C prms ham.nadi nd.time_overlap_adi).re i j = 0 ∧
      (overlap_nac C prms ham.nadi nd.time_overlap_adi).im i j = 0 := by
    intro nd hnd i j
    have h : overlap_nac C prms ham.nadi nd.time_overlap_adi =
        nac_direct prms.dt nd.time_overlap_adi := by simp [overlap_nac, ha]
    rw [h]
    exact nac_direct_symmetric prms.dt nd.time_overlap_adi (hsym nd hnd) i j
  refine ⟨?_, ?_, ?_⟩
  · rw [coupling_step_overlap_ham C prms _ hm]
    simp
  · rw [coupling_step_overlap_ham C prms _ hm]
    intro nd hnd i j
    obtain ⟨nd0, hnd0, rfl⟩ := List.mem_map.1 hnd
    exact hnac nd0 hnd0 i j
  · intro traj nac hc i j
    rw [update_type1_overlap_calls C prms dyn_var ham py_funct model_params hm,
      List.mem_append] at hc
    rcases hc with hc | hc
    · obtain ⟨tc, htc, heq⟩ := List.mem_map.1 hc
      have hnd : tc.2 ∈ ham.children := by
        have := List.mem_map_of_mem Prod.snd htc
        rwa [List.enum_map_snd] at this
      injection heq with _ hn
      rw [← hn]
      exact hnac tc.2 hnd i j
    · unfold spec_hvib_ops at hc
      split_ifs at hc
      · simp at hc
      · exact absurd hc (List.not_mem_nil _)

theorem identityOverlap_symmetric (a b : Int) :
    identityOverlap.im a b = 0 ∧ identityOverlap.re a b = identityOverlap.re b a := by
  refine ⟨rfl, ?_⟩
  unfold identityOverlap
  by_cases h : a = b
  · subst h; rfl
  · have h2 : ¬ b = a := fun e => h e.symm
    simp [h, h2]

/-- Witness for C13: one trajectory whose overlap is the 2 x 2 identity, `dt = 0.1`,
`update_type = 1`. -/
theorem symmetric_overlap_gives_zero_nac_witness :
    (coupling_step countingCollab (directPolicy (1 / 10))
        ({ dyn_var := sampleVars, ham := identityHam, calls := [] } :
          Run Unit Nat)).ham.children.length = identityHam.children.length ∧
    (∀ nd ∈ (coupling_step countingCollab (directPolicy (1 / 10))
        ({ dyn_var := sampleVars, ham := identityHam, calls := [] } :
          Run Unit Nat)).ham.children,
      ∀ i j : Int, nd.nac_adi.re i j = 0 ∧ nd.nac_adi.im i j = 0) ∧
    (∀ (traj : Nat) (nac : CMATRIX),
      Call.set_nac_adi_by_val traj nac ∈
        (update_Hamiltonian_variables countingCollab (directPolicy (1 / 10)) sampleVars
          identityHam () () 1).run.calls →
      ∀ i j : Int, nac.re i j = 0 ∧ nac.im i j = 0) :=
  symmetric_overlap_gives_zero_nac countingCollab (directPolicy (1 / 10)) sampleVars
    identityHam () () rfl rfl
    (fun nd hnd a b => by
      rw [List.mem_singleton.1 hnd]
      exact identityOverlap_symmetric a b)

theorem ofParts_real (re_part im_part : MATRIX) :
    (CMATRIX.ofParts re_part im_part).real = re_part := rfl

/-- C14: with `nac_update_method = 2` and `nac_algo = 1`, on every turn of the loop
(whatever the value the local `nac` had before) the coupling computed has the real part
`nac_npi(Re(st), dt)` and an imaginary part all of whose entries are zero, and it is the
same for two overlaps with the same real part; so after the coupling step the real part
of the coupling of every trajectory node is `nac_npi` of the real part of that node's
overlap, and its imaginary part is zero. -/
theorem npi_nac_real_part {Py X : Type} (C : Collaborators Py X)
    (prms : dyn_control_params) (dyn_var : dyn_variables) (ham : nHamiltonian X)
    (hm : prms.nac_update_method = 2) (ha : prms.nac_algo = 1) :
    (∀ st nac : CMATRIX,
      (nac_of_overlap C prms (MATRIX.zero ham.nadi ham.nadi) st nac).real =
        C.nac_npi st.real prms.dt ∧
      (nac_of_overlap C prms (MATRIX.zero ham.nadi ham.nadi) st nac).imag =
        MATRIX.zero (C.nac_npi st.real prms.dt).n_rows (C.nac_npi st.real prms.dt).n_cols) ∧
    (∀ st st' nac nac' : CMATRIX, st.real = st'.real →
      nac_of_overlap C prms (MATRIX.zero ham.nadi ham.nadi) st nac =
        nac_of_overlap C prms (MATRIX.zero ham.nadi ham.nadi) st' nac') ∧
    (coupling_step C prms
        ({ dyn_var := dyn_var, ham := ham, calls := [] } : Run Py X)).ham.children.map
          (fun nd => nd.nac_adi.real) =
      ham.children.map (fun nd => C.nac_npi nd.time_overlap_adi.real prms.dt) ∧
    (∀ nd ∈ (coupling_step C prms
        ({ dyn_var := dyn_var, ham := ham, calls := [] } : Run Py X)).ham.children,
      ∀ i j : Int, nd.nac_adi.im i j = 0) := by
  have hbody : ∀ st nac : CMATRIX,
      nac_of_overlap C prms (MATRIX.zero ham.nadi ham.nadi) st nac =
        CMATRIX.ofParts (C.nac_npi st.real prms.dt) (MATRIX.zero ham.nadi ham.nadi) := by
    intro st nac
    simp [nac_of_overlap, ha]
  have hspec : ∀ st : CMATRIX, overlap_nac C prms ham.nadi st =
      CMATRIX.ofParts (C.nac_npi st.real prms.dt) (MATRIX.zero ham.nadi ham.nadi) := by
    intro st
    simp [overlap_nac, ha]
  refine ⟨fun st nac => ?_, fun st st' nac nac' hst => ?_, ?_, ?_⟩
  · rw [hbody]
    exact ⟨rfl, rfl⟩
  · rw [hbody, hbody, hst]
  · rw [coupling_step_overlap_ham C prms _ hm, List.map_map]
    apply List.map_congr_left
    intro nd _
    show (overlap_nac C prms ham.nadi nd.time_overlap_adi).real = _
    rw [hspec]
    rfl
  · rw [coupling_step_overlap_ham C prms _ hm]
    intro nd hnd i j
    obtain ⟨nd0, _, rfl⟩ := List.mem_map.1 hnd
    show (overlap_nac C prms ham.nadi nd0.time_overlap_adi).im i j = 0
    rw [hspec]
    rfl

/-- Witness for C14: one trajectory with the overlap `[[0, 1], [0, 0]]`. -/
theorem npi_nac_real_part_witness :
    (∀ st nac : CMATRIX,
      (nac_of_overlap countingCollab npiPolicy (MATRIX.zero overlapHam.nadi overlapHam.nadi)
          st nac).real = countingCollab.nac_npi st.real npiPolicy.dt ∧
      (nac_of_overlap countingCollab npiPolicy (MATRIX.zero overlapHam.nadi overlapHam.nadi)
          st nac).imag =
        MATRIX.zero (countingCollab.nac_npi st.real npiPolicy.dt).n_rows
          (countingCollab.nac_npi st.real npiPolicy.dt).n_cols) ∧
    (∀ st st' nac nac' : CMATRIX, st.real = st'.real →
      nac_of_overlap countingCollab npiPolicy (MATRIX.zero overlapHam.nadi overlapHam.nadi)
          st nac =
        nac_of_overlap countingCollab npiPolicy
          (MATRIX.zero overlapHam.nadi overlapHam.nadi) st' nac') ∧
    (coupling_step countingCollab npiPolicy
        ({ dyn_var := sampleVars, ham := overlapHam, calls := [] } :
          Run Unit Nat)).ham.children.map (fun nd => nd.nac_adi.real) =
      overlapHam.children.map
        (fun nd => countingCollab.nac_npi nd.time_overlap_adi.real npiPolicy.dt) ∧
    (∀ nd ∈ (coupling_step countingCollab npiPolicy
        ({ dyn_var := sampleVars, ham := overlapHam, calls := [] } :
          Run Unit Nat)).ham.children,
      ∀ i j : Int, nd.nac_adi.im i j = 0) :=
  npi_nac_real_part countingCollab npiPolicy sampleVars overlapHam rfl rfl

/-- For the selectors 0 and 1 the coupling computed from an overlap does not depend on
the number of states of the Hamiltonian. -/
theorem overlap_nac_states {Py X : Type} (C : Collaborators Py X)
    (prms : dyn_control_params) (nst nst' : Nat) (st : CMATRIX)
    (ha : prms.nac_algo = 0 ∨ prms.nac_algo = 1) :
    overlap_nac C prms nst st = overlap_nac C prms nst' st := by
  unfold overlap_nac
  rcases ha with h | h
  · simp [h]
  · simp [h]
    rfl

/-- C15: with `nac_update_method = 2` and `nac_algo` 0 or 1, the coupling step changes
nothing but the couplings of the children: the dynamical variables, the root's number of
states and data, the length of the child list and, child by child and in the same order,
the stored time overlaps and the other data stay as they were; and the coupling it leaves
on child `i` is the same for any two Hamiltonians whose child `i` has the same stored
time overlap, whatever their other children. -/
theorem overlap_coupling_is_per_trajectory {Py X : Type} (C : Collaborators Py X)
    (prms : dyn_control_params) (r r' : Run Py X) (i : Nat)
    (hm : prms.nac_update_method = 2) (ha : prms.nac_algo = 0 ∨ prms.nac_algo = 1)
    (hov : (r.ham.children[i]?).map Node.time_overlap_adi =
      (r'.ham.children[i]?).map Node.time_overlap_adi) :
    (coupling_step C prms r).dyn_var = r.dyn_var ∧
    (coupling_step C prms r).ham.nadi = r.ham.nadi ∧
    (coupling_step C prms r).ham.data = r.ham.data ∧
    (coupling_step C prms r).ham.children.length = r.ham.children.length ∧
    (coupling_step C prms r).ham.children.map Node.time_overlap_adi =
      r.ham.children.map Node.time_overlap_adi ∧
    (coupling_step C prms r).ham.children.map Node.data = r.ham.children.map Node.data ∧
    ((coupling_step C prms r).ham.children[i]?).map Node.nac_adi =
      (r.ham.children[i]?).map
        (fun nd => nac_of_overlap C prms (MATRIX.zero r.ham.nadi r.ham.nadi)
          nd.time_overlap_adi (CMATRIX.zero r.ham.nadi r.ham.nadi)) ∧
    ((coupling_step C prms r).ham.children[i]?).map Node.nac_adi =
      ((coupling_step C prms r').ham.children[i]?).map Node.nac_adi := by
  have hnac : ∀ (s : Run Py X), ((coupling_step C prms s).ham.children[i]?).map Node.nac_adi =
      (s.ham.children[i]?).map
        (fun nd => overlap_nac C prms s.ham.nadi nd.time_overlap_adi) := by
    intro s
    rw [coupling_step_overlap_ham C prms s hm]
    simp only [List.getElem?_map, Option.map_map]
    rfl
  refine ⟨?_, ?_, ?_, ?_, ?_, ?_, ?_, ?_⟩
  · rw [coupling_step_eq, replay_dyn_var]
  · rw [coupling_step_overlap_ham C prms r hm]
  · rw [coupling_step_overlap_ham C prms r hm]
  · rw [coupling_step_overlap_ham C prms r hm]
    simp
  · rw [coupling_step_overlap_ham C prms r hm, List.map_map]
    exact List.map_congr_left (fun _ _ => rfl)
  · rw [coupling_step_overlap_ham C prms r hm, List.map_map]
    exact List.map_congr_left (fun _ _ => rfl)
  · rw [hnac r]
    rfl
  · rw [hnac r, hnac r']
    have h1 : (r.ham.children[i]?).map
        (fun nd => overlap_nac C prms r.ham.nadi nd.time_overlap_adi) =
        ((r.ham.children[i]?).map Node.time_overlap_adi).map
          (overlap_nac C prms r.ham.nadi) := by
      rw [Option.map_map]; rfl
    have h2 : (r'.ham.children[i]?).map
        (fun nd => overlap_nac C prms r'.ham.nadi nd.time_overlap_adi) =
        ((r'.ham.children[i]?).map Node.time_overlap_adi).map
          (overlap_nac C prms r.ham.nadi) := by
      rw [Option.map_map]
      congr 1
      funext nd
      exact overlap_nac_states C prms r'.ham.nadi r.ham.nadi nd.time_overlap_adi ha
    rw [h1, h2, hov]

/-- Witness for C15: two Hamiltonians with two children each, which agree on the overlap
of child 0 and differ on that of child 1. -/
theorem overlap_coupling_is_per_trajectory_witness :
    (coupling_step countingCollab (directPolicy 2)
      ({ dyn_var := sampleVars, ham := twoChildHam sampleOverlap, calls := [] } :
        Run Unit Nat)).dyn_var = sampleVars ∧
    (coupling_step countingCollab (directPolicy 2)
      ({ dyn_var := sampleVars, ham := twoChildHam sampleOverlap, calls := [] } :
        Run Unit Nat)).ham.nadi = (twoChildHam sampleOverlap).nadi ∧
    (coupling_step countingCollab (directPolicy 2)
      ({ dyn_var := sampleVars, ham := twoChildHam sampleOverlap, calls := [] } :
        Run Unit Nat)).ham.data = (twoChildHam sampleOverlap).data ∧
    (coupling_step countingCollab (directPolicy 2)
      ({ dyn_var := sampleVars, ham := twoChildHam sampleOverlap, calls := [] } :
        Run Unit Nat)).ham.children.length = (twoChildHam sampleOverlap).children.length ∧
    (coupling_step countingCollab (directPolicy 2)
      ({ dyn_var := sampleVars, ham := twoChildHam sampleOverlap, calls := [] } :
        Run Unit Nat)).ham.children.map Node.time_overlap_adi =
      (twoChildHam sampleOverlap).children.map Node.time_overlap_adi ∧
    (coupling_step countingCollab (directPolicy 2)
      ({ dyn_var := sampleVars, ham := twoChildHam sampleOverlap, calls := [] } :
        Run Unit Nat)).ham.children.map Node.data =
      (twoChildHam sampleOverlap).children.map Node.data ∧
    ((coupling_step countingCollab (directPolicy 2)
      ({ dyn_var := sampleVars, ham := twoChildHam sampleOverlap, calls := [] } :
        Run Unit Nat)).ham.children[0]?).map Node.nac_adi =
      ((twoChildHam sampleOverlap).children[0]?).map
        (fun nd => nac_of_overlap countingCollab (directPolicy 2)
          (MATRIX.zero (twoChildHam sampleOverlap).nadi (twoChildHam sampleOverlap).nadi)
          nd.time_overlap_adi
          (CMATRIX.zero (twoChildHam sampleOverlap).nadi (twoChildHam sampleOverlap).nadi)) ∧
    ((coupling_step countingCollab (directPolicy 2)
      ({ dyn_var := sampleVars, ham := twoChildHam sampleOverlap, calls := [] } :
        Run Unit Nat)).ham.children[0]?).map Node.nac_adi =
      ((coupling_step countingCollab (directPolicy 2)
        ({ dyn_var := sampleVars, ham := twoChildHam identityOverlap, calls := [] } :
          Run Unit Nat)).ham.children[0]?).map Node.nac_adi :=
  overlap_coupling_is_per_trajectory countingCollab (directPolicy 2)
    { dyn_var := sampleVars, ham := twoChildHam sampleOverlap, calls := [] }
    { dyn_var := sampleVars, ham := twoChildHam identityOverlap, calls := [] }
    0 rfl (Or.inl rfl) rfl

/-- C16: whatever the policy and `update_type`, and whether the call returns or ends in
`exit`, the dynamical variables it leaves are those it was given: `q`, `p` and `iM` are
unchanged, entry by entry; the masked momenta are built in the separate matrix
`p_quantum_dof`, which is what the coupling calls receive when `nac_update_method = 1`. -/
theorem dyn_variables_only_read {Py X : Type} (C : Collaborators Py X)
    (prms : dyn_control_params) (dyn_var : dyn_variables) (ham : nHamiltonian X)
    (py_funct model_params : Py) (update_type : Int) :
    (update_Hamiltonian_variables C prms dyn_var ham py_funct model_params
        update_type).run.dyn_var = dyn_var ∧
    (∀ d t : Int,
      (update_Hamiltonian_variables C prms dyn_var ham py_funct model_params
          update_type).run.dyn_var.p.get d t = dyn_var.p.get d t ∧
      (update_Hamiltonian_variables C prms dyn_var ham py_funct model_params
          update_type).run.dyn_var.q.get d t = dyn_var.q.get d t ∧
      (update_Hamiltonian_variables C prms dyn_var ham py_funct model_params
          update_type).run.dyn_var.iM.get d t = dyn_var.iM.get d t) ∧
    (coupling_step C { prms with nac_update_method := 1 }
        ({ dyn_var := dyn_var, ham := ham, calls := [] } : Run Py X)).dyn_var = dyn_var ∧
    (coupling_step C { prms with nac_update_method := 1 }
        ({ dyn_var := dyn_var, ham := ham, calls := [] } : Run Py X)).calls =
      [Call.compute_nac_dia (p_quantum_dof prms dyn_var) dyn_var.iM 0 1,
       Call.compute_nac_adi (p_quantum_dof prms dyn_var) dyn_var.iM 0 1] := by
  have h : (update_Hamiltonian_variables C prms dyn_var ham py_funct model_params
      update_type).run.dyn_var = dyn_var := by
    by_cases h0 : update_type = 0
    · subst h0
      rw [update_type0_eq]
      by_cases he : prms.entanglement_opt = 0 ∨ prms.entanglement_opt = 1 ∨
          prms.entanglement_opt = 2 ∨ prms.entanglement_opt = 22
      · rw [if_pos he, Outcome.run, phase_B_eq, replay_dyn_var, phase_A,
          entanglement_step_eq C prms _ he, Outcome.run, replay_dyn_var, transform_step_eq,
          replay_dyn_var, energy_step_eq, replay_dyn_var]
      · rw [if_neg he, Outcome.run, transform_step_eq, replay_dyn_var, energy_step_eq,
          replay_dyn_var]
    · by_cases h1 : update_type = 1
      · subst h1
        rw [update_type1_eq, Outcome.run, phase_B_eq, replay_dyn_var]
      · rw [update_type_other_eq C prms dyn_var ham py_funct model_params update_type h0 h1]
        rfl
  refine ⟨h, fun d t => ?_, ?_, ?_⟩
  · rw [h]
    exact ⟨rfl, rfl, rfl⟩
  · rw [coupling_step_eq, replay_dyn_var]
  · rfl

/-- C19: with `nac_update_method = 2` and a selector `nac_algo` other than 0 and 1, a
call with `update_type = 1` returns; it makes one store per trajectory, in trajectory
order, each of the zero matrix with `nadi` rows and columns, and the coupling step leaves
that zero matrix as the coupling of every child, whatever the stored time overlaps and
`dt`. -/
theorem undefined_selector_stores_zero {Py X : Type} (C : Collaborators Py X)
    (prms : dyn_control_params) (dyn_var : dyn_variables) (ham : nHamiltonian X)
    (py_funct model_params : Py)
    (hm : prms.nac_update_method = 2) (h0 : prms.nac_algo ≠ 0) (h1 : prms.nac_algo ≠ 1) :
    (update_Hamiltonian_variables C prms dyn_var ham py_funct model_params 1).failure = none ∧
    (update_Hamiltonian_variables C prms dyn_var ham py_funct model_params 1).run.calls =
      (List.range ham.children.length).map
        (fun traj => Call.set_nac_adi_by_val traj (CMATRIX.zero ham.nadi ham.nadi)) ++
      spec_hvib_ops prms ∧
    (coupling_step C prms ({ dyn_var := dyn_var, ham := ham, calls := [] } : Run Py X)).ham =
      { ham with children := ham.children.map (fun nd =>
          { nd with nac_adi := CMATRIX.zero ham.nadi ham.nadi }) } := by
  have hz : ∀ st : CMATRIX, overlap_nac C prms ham.nadi st = CMATRIX.zero ham.nadi ham.nadi := by
    intro st
    simp [overlap_nac, h0, h1]
  refine ⟨?_, ?_, ?_⟩
  · rw [update_type1_eq]
    rfl
  · rw [update_type1_overlap_calls C prms dyn_var ham py_funct model_params hm]
    congr 1
    unfold spec_overlap_ops
    simp only [hz]
    rw [← List.enum_map_fst, List.map_map]
    rfl
  · rw [coupling_step_overlap_ham C prms _ hm]
    simp only [hz]
    rfl

/-- Witness for C19: the selector 7 on one trajectory with the overlap
`[[0, 1], [0, 0]]`. -/
theorem undefined_selector_stores_zero_witness :
    (update_Hamiltonian_variables countingCollab undefinedAlgoPolicy sampleVars overlapHam
        () () 1).failure = none ∧
    (update_Hamiltonian_variables countingCollab undefinedAlgoPolicy sampleVars overlapHam
        () () 1).run.calls =
      (List.range overlapHam.children.length).map
        (fun traj => Call.set_nac_adi_by_val traj
          (CMATRIX.zero overlapHam.nadi overlapHam.nadi)) ++
      spec_hvib_ops undefinedAlgoPolicy ∧
    (coupling_step countingCollab undefinedAlgoPolicy
        ({ dyn_var := sampleVars, ham := overlapHam, calls := [] } : Run Unit Nat)).ham =
      { overlapHam with children := overlapHam.children.map (fun nd =>
          { nd with nac_adi := CMATRIX.zero overlapHam.nadi overlapHam.nadi }) } :=
  undefined_selector_stores_zero countingCollab undefinedAlgoPolicy sampleVars overlapHam
    () () rfl (by decide) (by decide)

end libdyn
end liblibra

namespace libchemobjects
namespace libchemsys

/-! ## Theorems on the topology look-ups -/

/-- A loop without `break` that overwrites its answer with the index at every match
returns the last match. -/
theorem foldl_last_match (M : Nat → Prop) (f : Int → Nat → Int)
    (hyes : ∀ indx i, M i → f indx i = (i : Int))
    (hno : ∀ indx i, ¬ M i → f indx i = indx) (n : Nat) :
    IsLastMatch n M ((List.range n).foldl f (-1)) := by
  induction n with
  | zero =>
    refine ⟨⟨fun _ i hi => absurd hi (Nat.not_lt_zero i), fun _ => rfl⟩, Or.inl rfl⟩
  | succ n ih =>
    rw [List.range_succ, List.foldl_append, List.foldl_cons, List.foldl_nil]
    obtain ⟨ih1, ih2⟩ := ih
    by_cases hM : M n
    · rw [hyes _ n hM]
      refine ⟨⟨fun h => ?_, fun h => absurd hM (h n (Nat.lt_succ_self n))⟩, Or.inr ⟨n,
        Nat.lt_succ_self n, rfl, hM, fun j hj _ => Nat.le_of_lt_succ hj⟩⟩
      omega
    · rw [hno _ n hM]
      refine ⟨⟨fun h i hi => ?_, fun h => ih1.2 (fun i hi => h i (Nat.lt_succ_of_lt hi))⟩, ?_⟩
      · rcases Nat.lt_succ_iff_lt_or_eq.1 hi with hlt | heq
        · exact ih1.1 h i hlt
        · rw [heq]; exact hM
      · rcases ih2 with h | ⟨i, hi, hres, hMi, hmax⟩
        · exact Or.inl h
        · refine Or.inr ⟨i, Nat.lt_succ_of_lt hi, hres, hMi, fun j hj hMj => ?_⟩
          rcases Nat.lt_succ_iff_lt_or_eq.1 hj with hlt | heq
          · exact hmax j hlt hMj
          · rw [heq] at hMj; exact absurd hMj hM

/-- C17: each of the three id-to-index look-ups returns -1 exactly when no entry among
the first `Number_of_*` ones has its id flag set and the id asked for, and otherwise the
largest index of such an entry. -/
theorem id_lookups_return_last_match (S : System) (id : Int) :
    IsLastMatch S.Number_of_atoms.toNat (atom_id_match S id)
      (get_atom_index_by_atom_id S id) ∧
    IsLastMatch S.Number_of_fragments.toNat (fragment_id_match S id)
      (get_fragment_index_by_fragment_id S id) ∧
    IsLastMatch S.Number_of_molecules.toNat (molecule_id_match S id)
      (get_molecule_index_by_molecule_id S id) := by
  refine ⟨?_, ?_, ?_⟩
  · apply foldl_last_match
    · rintro indx i ⟨a, ha, hflag, hid⟩
      simp only [ha, hflag, hid, ne_eq, not_false_eq_true, if_true]
    · intro indx i hM
      cases ha : S.Atoms[i]? with
      | none => rfl
      | some a =>
        by_cases hflag : a.is_Atom_id ≠ 0
        · by_cases hid : a.Atom_id = id
          · exact absurd ⟨a, ha, hflag, hid⟩ hM
          · simp only [hid, if_false, ite_self]
        · simp only [hflag, if_false]
  · apply foldl_last_match
    · rintro indx i ⟨a, ha, hflag, hid⟩
      simp only [ha, hflag, hid, ne_eq, not_false_eq_true, if_true]
    · intro indx i hM
      cases ha : S.Fragments[i]? with
      | none => rfl
      | some a =>
        by_cases hflag : a.is_Group_id ≠ 0
        · by_cases hid : a.Group_id = id
          · exact absurd ⟨a, ha, hflag, hid⟩ hM
          · simp only [hid, if_false, ite_self]
        · simp only [hflag, if_false]
  · apply foldl_last_match
    · rintro indx i ⟨a, ha, hflag, hid⟩
      simp only [ha, hflag, hid, ne_eq, not_false_eq_true, if_true]
    · intro indx i hM
      cases ha : S.Molecules[i]? with
      | none => rfl
      | some a =>
        by_cases hflag : a.is_Molecule_id ≠ 0
        · by_cases hid : a.Molecule_id = id
          · exact absurd ⟨a, ha, hflag, hid⟩ hM
          · simp only [hid, if_false, ite_self]
        · simp only [hflag, if_false]

theorem foldl_flag_from_one {α : Type} (Q : α → Prop) (g : Int → α → Int)
    (hyes : ∀ res x, Q x → g res x = 1) (hno : ∀ res x, ¬ Q x → g res x = res)
    (L : List α) : L.foldl g 1 = 1 := by
  induction L with
  | nil => rfl
  | cons a L ih =>
    rw [List.foldl_cons]
    by_cases ha : Q a
    · rw [hyes 1 a ha]; exact ih
    · rw [hno 1 a ha]; exact ih

/-- A loop without `break` that sets its answer to 1 at every hit ends with 1 when there
is a hit. -/
theorem foldl_flag_of_hit {α : Type} (Q : α → Prop) (g : Int → α → Int)
    (hyes : ∀ res x, Q x → g res x = 1) (hno : ∀ res x, ¬ Q x → g res x = res)
    (L : List α) (init : Int) (h : ∃ x ∈ L, Q x) :
    L.foldl g init = 1 := by
  induction L generalizing init with
  | nil =>
    obtain ⟨x, hx, _⟩ := h
    exact absurd hx (List.not_mem_nil x)
  | cons a L ih =>
    rw [List.foldl_cons]
    by_cases ha : Q a
    · rw [hyes init a ha]
      exact foldl_flag_from_one Q g hyes hno L
    · rw [hno init a ha]
      obtain ⟨x, hx, hQ⟩ := h
      rcases List.mem_cons.1 hx with rfl | hx
      · exact absurd hQ ha
      · exact ih init ⟨x, hx, hQ⟩

/-- Such a loop leaves its answer as it was when there is no hit. -/
theorem foldl_flag_of_no_hit {α : Type} (Q : α → Prop) (g : Int → α → Int)
    (hno : ∀ res x, ¬ Q x → g res x = res)
    (L : List α) (init : Int) (h : ¬ ∃ x ∈ L, Q x) :
    L.foldl g init = init := by
  induction L with
  | nil => rfl
  | cons a L ih =>
    rw [List.foldl_cons, hno init a (fun ha => h ⟨a, List.mem_cons_self _ _, ha⟩)]
    exact ih (fun ⟨x, hx, hQ⟩ => h ⟨x, List.mem_cons_of_mem _ hx, hQ⟩)

theorem is_12pair_of_mem (S : System) (a b : Int) (h : b ∈ adjacent S a) :
    is_12pair S a b = 1 :=
  foldl_flag_of_hit (fun x => x = b) _ (fun _ _ hx => if_pos hx) (fun _ _ hx => if_neg hx)
    _ 0 ⟨b, h, rfl⟩

theorem is_12pair_of_not_mem (S : System) (a b : Int) (h : b ∉ adjacent S a) :
    is_12pair S a b = 0 :=
  foldl_flag_of_no_hit (fun x => x = b) _ (fun _ _ hx => if_neg hx) _ 0
    (fun ⟨_, hx, hxb⟩ => h (hxb ▸ hx))

theorem is_12pair_ne_zero_iff (S : System) (a b : Int) :
    is_12pair S a b ≠ 0 ↔ is_12pair S a b = 1 := by
  by_cases h : b ∈ adjacent S a
  · rw [is_12pair_of_mem S a b h]; decide
  · rw [is_12pair_of_not_mem S a b h]; decide

/-- C18: `is_12pair(a, b)` is 1 when `b` occurs in the adjacency list of `a` and 0
otherwise; `is_14pair(a, b)` is 1 when some neighbour `x` of `a` and some neighbour `y` of
`b` have `is_12pair(x, y) = 1`, and 0 otherwise. -/
theorem pair_tests_follow_adjacency (S : System) (a b : Int) :
    (is_12pair S a b = 1 ↔ b ∈ adjacent S a) ∧
    (is_12pair S a b = 0 ↔ b ∉ adjacent S a) ∧
    (is_14pair S a b = 1 ↔
      ∃ x ∈ adjacent S a, ∃ y ∈ adjacent S b, is_12pair S x y = 1) ∧
    (is_14pair S a b = 0 ↔
      ¬ ∃ x ∈ adjacent S a, ∃ y ∈ adjacent S b, is_12pair S x y = 1) := by
  have h12 : (is_12pair S a b = 1 ↔ b ∈ adjacent S a) ∧
      (is_12pair S a b = 0 ↔ b ∉ adjacent S a) := by
    by_cases h : b ∈ adjacent S a
    · rw [is_12pair_of_mem S a b h]
      exact ⟨⟨fun _ => h, fun _ => rfl⟩, ⟨fun h0 => absurd h0 (by decide), fun hn => absurd h hn⟩⟩
    · rw [is_12pair_of_not_mem S a b h]
      exact ⟨⟨fun h0 => absurd h0 (by decide), fun hm => absurd hm h⟩, ⟨fun _ => h, fun _ => rfl⟩⟩
  have hinner_yes : ∀ (res : Int) (x : Int),
      (∃ y ∈ adjacent S b, is_12pair S x y = 1) →
      (adjacent S b).foldl (fun res y => if is_12pair S x y ≠ 0 then 1 else res) res = 1 := by
    intro res x hx
    exact foldl_flag_of_hit (fun y => is_12pair S x y ≠ 0) _ (fun _ _ hy => if_pos hy)
      (fun _ _ hy => if_neg hy) _ res
      (hx.imp fun y hy => ⟨hy.1, (is_12pair_ne_zero_iff S x y).2 hy.2⟩)
  have hinner_no : ∀ (res : Int) (x : Int),
      ¬ (∃ y ∈ adjacent S b, is_12pair S x y = 1) →
      (adjacent S b).foldl (fun res y => if is_12pair S x y ≠ 0 then 1 else res) res = res := by
    intro res x hx
    exact foldl_flag_of_no_hit (fun y => is_12pair S x y ≠ 0) _ (fun _ _ hy => if_neg hy) _ res
      (fun ⟨y, hy, hxy⟩ => hx ⟨y, hy, (is_12pair_ne_zero_iff S x y).1 hxy⟩)
  refine ⟨h12.1, h12.2, ?_⟩
  by_cases h : ∃ x ∈ adjacent S a, ∃ y ∈ adjacent S b, is_12pair S x y = 1
  · have h1 : is_14pair S a b = 1 :=
      foldl_flag_of_hit (fun x => ∃ y ∈ adjacent S b, is_12pair S x y = 1) _
        (fun res x hx => hinner_yes res x hx) (fun res x hx => hinner_no res x hx)
        _ 0 h
    rw [h1]
    exact ⟨⟨fun _ => h, fun _ => rfl⟩, ⟨fun h0 => absurd h0 (by decide), fun hn => absurd h hn⟩⟩
  · have h0 : is_14pair S a b = 0 :=
      foldl_flag_of_no_hit (fun x => ∃ y ∈ adjacent S b, is_12pair S x y = 1) _
        (fun res x hx => hinner_no res x hx) _ 0 h
    rw [h0]
    exact ⟨⟨fun h1 => absurd h1 (by decide), fun hm => absurd hm h⟩, ⟨fun _ => h, fun _ => rfl⟩⟩

/-- The loop with `break` returns the first hit at or after the counter. -/
theorem search_with_break_spec (hit : Nat → Bool) (k i0 : Nat) :
    (search_with_break hit k i0 = -1 ↔ ∀ i, i0 ≤ i → i < i0 + k → hit i = false) ∧
    (search_with_break hit k i0 = -1 ∨
      ∃ i, i0 ≤ i ∧ i < i0 + k ∧ search_with_break hit k i0 = (i : Int) ∧ hit i = true ∧
        ∀ j, i0 ≤ j → j < i → hit j = false) := by
  induction k generalizing i0 with
  | zero =>
    refine ⟨⟨fun _ i h1 h2 => ?_, fun _ => rfl⟩, Or.inl rfl⟩
    omega
  | succ k ih =>
    rw [search_with_break]
    cases hh : hit i0 with
    | true =>
      simp only [if_true]
      refine ⟨⟨fun h => ?_, fun h => ?_⟩, Or.inr ⟨i0, Nat.le_refl _, by omega, rfl, hh,
        fun j h1 h2 => by omega⟩⟩
      · omega
      · have := h i0 (Nat.le_refl _) (by omega)
        rw [hh] at this
        exact absurd this (by decide)
    | false =>
      simp only [Bool.false_eq_true, if_false]
      obtain ⟨ih1, ih2⟩ := ih (i0 + 1)
      refine ⟨⟨fun h i h1 h2 => ?_, fun h => ih1.2 (fun i h1 h2 => h i (by omega) (by omega))⟩,
        ?_⟩
      · rcases Nat.eq_or_lt_of_le h1 with heq | hlt
        · rw [← heq]; exact hh
        · exact ih1.1 h i hlt (by omega)
      · rcases ih2 with h | ⟨i, h1, h2, h3, h4, h5⟩
        · exact Or.inl h
        · refine Or.inr ⟨i, by omega, by omega, h3, h4, fun j hj1 hj2 => ?_⟩
          rcases Nat.eq_or_lt_of_le hj1 with heq | hlt
          · rw [← heq]; exact hh
          · exact h5 j hlt hj2

theorem search_with_break_first_match (hit : Nat → Bool) (M : Nat → Prop)
    (hM : ∀ i, hit i = true ↔ M i) (n : Nat) :
    IsFirstMatch n M (search_with_break hit n 0) := by
  have hF : ∀ i, hit i = false ↔ ¬ M i := by
    intro i
    rw [← hM i]
    cases hit i <;> simp
  obtain ⟨h1, h2⟩ := search_with_break_spec hit n 0
  refine ⟨⟨fun h i hi => (hF i).1 (h1.1 h i (Nat.zero_le i) (by omega)),
    fun h => h1.2 (fun i _ hi => (hF i).2 (h i (by omega)))⟩, ?_⟩
  rcases h2 with h | ⟨i, _, hi, hres, hhit, hmin⟩
  · exact Or.inl h
  · exact Or.inr ⟨i, by omega, hres, (hM i).1 hhit,
      fun j hj => (hF j).1 (hmin j (Nat.zero_le j) hj)⟩

theorem bond_test_iff (S : System) (a b : Int) (i : Nat) :
    bond_test S a b i = true ↔ bond_match S a b i := by
  unfold bond_test bond_match
  cases h : S.Bonds[i]? with
  | none => simp
  | some g => simp

theorem bond_test_symm (S : System) (a b : Int) : bond_test S a b = bond_test S b a := by
  funext i
  unfold bond_test
  cases S.Bonds[i]? with
  | none => rfl
  | some g => exact decide_eq_decide.2 Or.comm

theorem angle_test_symm (S : System) (a b c : Int) :
    angle_test S a b c = angle_test S c b a := by
  funext i
  unfold angle_test
  cases S.Angles[i]? with
  | none => rfl
  | some g => exact decide_eq_decide.2 Or.comm

theorem dihedral_test_symm (S : System) (a b c d : Int) :
    dihedral_test S a b c d = dihedral_test S d c b a := by
  funext i
  unfold dihedral_test
  cases S.Dihedrals[i]? with
  | none => rfl
  | some g => exact decide_eq_decide.2 Or.comm

/-- C20: `Find_Bond(a, b) = Find_Bond(b, a)`; the result is -1 exactly when no bond among
the first `Number_of_bonds` has the endpoints `a` and `b` in either order, and otherwise
it is the smallest index of such a bond; and `Find_Angle(a, b, c) = Find_Angle(c, b, a)`,
`Find_Dihedral(a, b, c, d) = Find_Dihedral(d, c, b, a)`. -/
theorem find_lookups_symmetric_first_match (S : System) (a b c d : Int) :
    Find_Bond S a b = Find_Bond S b a ∧
    IsFirstMatch S.Number_of_bonds.toNat (bond_match S a b) (Find_Bond S a b) ∧
    Find_Angle S a b c = Find_Angle S c b a ∧
    Find_Dihedral S a b c d = Find_Dihedral S d c b a := by
  refine ⟨?_, ?_, ?_, ?_⟩
  · unfold Find_Bond
    rw [bond_test_symm]
  · exact search_with_break_first_match _ _ (bond_test_iff S a b) _
  · unfold Find_Angle
    rw [angle_test_symm]
  · unfold Find_Dihedral
    rw [dihedral_test_symm]

end libchemsys
end libchemobjects

namespace libdyn
namespace libnuclear

/-! ## Theorems on the momentum propagation -/

/-- The statement `p[i] += dt*f[i]` changes `p` only, at the index `i` only. -/
theorem add_dt_f_spec (N : Nuclear) (i : Int) (dt : ℚ) :
    N.add_dt_f i dt = { N with p := (N.add_dt_f i dt).p } ∧
    (N.add_dt_f i dt).p.length = N.p.length ∧
    ∀ j : Nat, (N.add_dt_f i dt).p.getD j 0 =
      N.p.getD j 0 + (if j < N.p.length ∧ i = (j : Int) then dt * N.f.getD j 0 else 0) := by
  unfold Nuclear.add_dt_f
  by_cases hg : 0 ≤ i ∧ i.toNat < N.p.length
  · rw [if_pos hg]
    refine ⟨rfl, by simp, fun j => ?_⟩
    simp only [List.getD_eq_getElem?_getD, List.getElem?_set]
    by_cases hij : i = (j : Int)
    · subst hij
      have hj : j < N.p.length := by simpa using hg.2
      simp [hj]
    · have hne : ¬ i.toNat = j := by omega
      simp [hne, hij]
  · rw [if_neg hg]
    refine ⟨rfl, rfl, fun j => ?_⟩
    have : ¬ (j < N.p.length ∧ i = (j : Int)) := by
      rintro ⟨h1, h2⟩
      apply hg
      subst h2
      exact ⟨by omega, by simpa using h1⟩
    rw [if_neg this, add_zero]

/-- A sequence of statements `p[I] += dt*f[I]` changes `p` only; the entry `j` of `p`
grows by `dt*f[j]` once for every occurrence of `j` in the sequence. -/
theorem add_dt_f_foldl_spec (dt : ℚ) (L : List Int) (N : Nuclear) :
    L.foldl (fun acc I => acc.add_dt_f I dt) N =
      { N with p := (L.foldl (fun acc I => acc.add_dt_f I dt) N).p } ∧
    (L.foldl (fun acc I => acc.add_dt_f I dt) N).p.length = N.p.length ∧
    ∀ j : Nat, (L.foldl (fun acc I => acc.add_dt_f I dt) N).p.getD j 0 =
      N.p.getD j 0 +
        (if j < N.p.length then (L.count (j : Int) : ℚ) * (dt * N.f.getD j 0) else 0) := by
  induction L generalizing N with
  | nil =>
    refine ⟨rfl, rfl, fun j => ?_⟩
    simp
  | cons I L ih =>
    rw [List.foldl_cons]
    obtain ⟨k1, k2, k3⟩ := add_dt_f_spec N I dt
    obtain ⟨h1, h2, h3⟩ := ih (N.add_dt_f I dt)
    have hf : (N.add_dt_f I dt).f = N.f := by rw [k1]
    refine ⟨?_, h2.trans k2, fun j => ?_⟩
    · rw [h1, k1]
    · rw [h3 j, k3 j, k2, hf, List.count_cons]
      by_cases hj : j < N.p.length
      · by_cases hI : I = (j : Int)
        · subst hI
          simp [hj]
          ring
        · have hI' : ¬ ((j : Int) = I) := fun e => hI e.symm
          simp [hj, hI, hI']
      · simp [hj]
theorem getElem?_eq_some_getD (l : List ℚ) (j : Nat) (h : j < l.length) :
    l[j]? = some (l.getD j 0) := by
  simp [List.getD_eq_getElem?_getD, List.getElem?_eq_getElem h]

/-- A sequence of statements `p[I] += dt*f[I]` over distinct indices: the entry `j` of `p`
grows by `dt*f[j]` when `j` is in range and listed, and is unchanged otherwise. -/
theorem add_dt_f_foldl_nodup (dt : ℚ) (L : List Int) (N : Nuclear) (hnd : L.Nodup) (j : Nat) :
    (L.foldl (fun acc I => acc.add_dt_f I dt) N).p.getD j 0 =
      if j < N.p.length ∧ (j : Int) ∈ L then N.p.getD j 0 + dt * N.f.getD j 0
      else N.p.getD j 0 := by
  rw [(add_dt_f_foldl_spec dt L N).2.2 j]
  by_cases hj : j < N.p.length
  · by_cases hm : (j : Int) ∈ L
    · rw [if_pos hj, if_pos ⟨hj, hm⟩, List.count_eq_one_of_mem hnd hm]
      simp
    · rw [if_pos hj, if_neg (fun h => hm h.2), List.count_eq_zero_of_not_mem hm]
      simp
  · rw [if_neg hj, if_neg (fun h => hj h.1), add_zero]

theorem range_cast_nodup (n : Nat) : ((List.range n).map Int.ofNat).Nodup :=
  (List.nodup_range n).map (fun _ _ h => Int.ofNat.inj h)

theorem mem_range_cast (n j : Nat) : (j : Int) ∈ (List.range n).map Int.ofNat ↔ j < n := by
  constructor
  · intro h
    obtain ⟨k, hk, hkj⟩ := List.mem_map.1 h
    have : k = j := Int.ofNat.inj hkj
    rw [← this]
    exact List.mem_range.1 hk
  · intro h
    exact List.mem_map.2 ⟨j, List.mem_range.2 h, rfl⟩

/-- C21: for a `Nuclear` whose `p` and `f` have `nnucl` entries, `propagate_p(dt)` gives
the state of `propagate_p(dt, active)` with `active = [0, ..., nnucl - 1]` and of the calls
`propagate_p(i, dt)` for `i = 0, ..., nnucl - 1` in turn: every `p[i]` has become
`p[i] + dt*f[i]` and nothing else has changed.  For a list `active` of distinct indices in
range, `propagate_p(dt, active)` changes `p` only, and there the listed entries only, each
to `p[i] + dt*f[i]`. -/
theorem propagate_p_overloads_agree (N : Nuclear) (dt : ℚ) (active : List Int)
    (hp : (N.p.length : Int) = N.nnucl) (hf : (N.f.length : Int) = N.nnucl)
    (hnd : active.Nodup) (hin : ∀ I ∈ active, 0 ≤ I ∧ I < N.nnucl) :
    N.propagate_p dt =
      N.propagate_p_active dt ((List.range N.nnucl.toNat).map Int.ofNat) ∧
    N.propagate_p dt =
      (List.range N.nnucl.toNat).foldl
        (fun acc (i : Nat) => acc.propagate_p_at (i : Int) dt) N ∧
    N.propagate_p dt = { N with p := List.zipWith (fun pi fi => pi + dt * fi) N.p N.f } ∧
    N.propagate_p_active dt active = { N with p := (N.propagate_p_active dt active).p } ∧
    (N.propagate_p_active dt active).p.length = N.p.length ∧
    ∀ j : Nat, (N.propagate_p_active dt active).p.getD j 0 =
      if (j : Int) ∈ active then N.p.getD j 0 + dt * N.f.getD j 0 else N.p.getD j 0 := by
  have h1 : N.propagate_p dt =
      N.propagate_p_active dt ((List.range N.nnucl.toNat).map Int.ofNat) := by
    unfold Nuclear.propagate_p Nuclear.propagate_p_active
    rw [List.foldl_map]
    rfl
  have hlen : N.nnucl.toNat = N.p.length := by omega
  have hlenf : N.f.length = N.p.length := by omega
  refine ⟨h1, rfl, ?_, (add_dt_f_foldl_spec dt active N).1,
    (add_dt_f_foldl_spec dt active N).2.1, fun j => ?_⟩
  · rw [h1]
    unfold Nuclear.propagate_p_active
    obtain ⟨g1, g2, _⟩ := add_dt_f_foldl_spec dt ((List.range N.nnucl.toNat).map Int.ofNat) N
    rw [g1]
    congr 1
    apply List.ext_getElem?
    intro j
    by_cases hj : j < N.p.length
    · have hjf : j < N.f.length := by omega
      rw [getElem?_eq_some_getD _ j (by rw [g2]; exact hj),
        add_dt_f_foldl_nodup dt _ N (range_cast_nodup _) j,
        if_pos ⟨hj, (mem_range_cast _ j).2 (by omega)⟩, List.getElem?_zipWith,
        getElem?_eq_some_getD N.p j hj, getElem?_eq_some_getD N.f j hjf]
    · have hjf : ¬ j < N.f.length := by omega
      rw [List.getElem?_eq_none (by rw [g2]; omega), List.getElem?_zipWith,
        List.getElem?_eq_none (by omega : N.p.length ≤ j)]
  · unfold Nuclear.propagate_p_active
    rw [add_dt_f_foldl_nodup dt active N hnd j]
    by_cases hm : (j : Int) ∈ active
    · have hj : j < N.p.length := by
        have := (hin _ hm).2
        omega
      rw [if_pos ⟨hj, hm⟩, if_pos hm]
    · rw [if_neg (fun h => hm h.2), if_neg hm]

/-- Witness for C21: three nuclei with momenta `[1, 2, 3]`, forces `[10, 20, 30]`,
`dt = 2` and `active = [0, 2]`. -/
theorem propagate_p_overloads_agree_witness :
    sampleNuclear.propagate_p 2 =
      sampleNuclear.propagate_p_active 2 ((List.range sampleNuclear.nnucl.toNat).map Int.ofNat) ∧
    sampleNuclear.propagate_p 2 =
      (List.range sampleNuclear.nnucl.toNat).foldl
        (fun acc (i : Nat) => acc.propagate_p_at (i : Int) 2) sampleNuclear ∧
    sampleNuclear.propagate_p 2 =
      { sampleNuclear with
        p := List.zipWith (fun pi fi => pi + 2 * fi) sampleNuclear.p sampleNuclear.f } ∧
    sampleNuclear.propagate_p_active 2 [0, 2] =
      { sampleNuclear with p := (sampleNuclear.propagate_p_active 2 [0, 2]).p } ∧
    (sampleNuclear.propagate_p_active 2 [0, 2]).p.length = sampleNuclear.p.length ∧
    ∀ j : Nat, (sampleNuclear.propagate_p_active 2 [0, 2]).p.getD j 0 =
      if (j : Int) ∈ ([0, 2] : List Int) then
        sampleNuclear.p.getD j 0 + 2 * sampleNuclear.f.getD j 0
      else sampleNuclear.p.getD j 0 :=
  propagate_p_overloads_agree sampleNuclear 2 [0, 2] rfl rfl (by decide) (by decide)

end libnuclear
end libdyn
